import Mathlib

/-!
youtube-videos-api: ingestion and query handlers

A shallow embedding of `src/controller/video.controller.js` (with the schema of
`src/models/video.models.js`) and the properties of its handlers.

Modelling conventions
* A query-string parameter is `Option String`: `none` is `undefined` (the
  parameter was not sent).
* A number that comes from the request is a `JsNumber`: `NaN`, an infinity, or
  the integer a double holds; `parseInt` rounds to the nearest double. A number
  that counts or indexes documents is a `Nat`: a collection holds fewer than
  2^53 documents, so these are exact.
* The collection is a `List VideoDoc`; `_id` is a `Nat` ordered like an
  ObjectId, `publishedAt`, `createdAt`, `updatedAt` are instants in milliseconds.
* `Store.down` is a store whose driver rejects every call (the `catch` branch of
  the handlers).
-/

namespace YoutubeVideosApi

/-! ## Data model (`video.models.js`) -/

/-- The `thumbnail` sub-document of `videoSchema`, also the shape of a provider
thumbnail object: each of the three paths may be absent (`none`). -/
structure Thumbnail where
  url : Option String
  width : Option Int
  height : Option Int
deriving DecidableEq, Repr

/-- A stored document of the `Video` model (`timestamps: true` adds `createdAt`
and `updatedAt`, mongoose adds `_id` and `__v`). -/
structure VideoDoc where
  _id : Nat
  videoId : String
  title : String
  description : String
  publishedAt : Int
  thumbnail : Thumbnail
  channelId : String
  channelTitle : String
  createdAt : Int
  updatedAt : Int
  __v : Nat
deriving DecidableEq, Repr

/-- A document as returned by `.select("-__v").lean()`: every path but `__v`. -/
structure VideoView where
  _id : Nat
  videoId : String
  title : String
  description : String
  publishedAt : Int
  thumbnail : Thumbnail
  channelId : String
  channelTitle : String
  createdAt : Int
  updatedAt : Int
deriving DecidableEq, Repr

/-- The projection `.select("-__v")`. -/
def selectNoV (d : VideoDoc) : VideoView :=
  { _id := d._id, videoId := d.videoId, title := d.title, description := d.description,
    publishedAt := d.publishedAt, thumbnail := d.thumbnail, channelId := d.channelId,
    channelTitle := d.channelTitle, createdAt := d.createdAt, updatedAt := d.updatedAt }

/-- The collection behind the `Video` model: reachable with its documents, or
rejecting every call. -/
inductive Store where
  | up (docs : List VideoDoc)
  | down
deriving DecidableEq, Repr

/-- The calls a handler makes on the `Video` model. -/
inductive StoreOp where
  | find
  | countDocuments
  | findOne
deriving DecidableEq, Repr

/-! ## Requests and responses -/

/-- The part `req.query` of a request that the handlers read. -/
structure Request where
  q : Option String := none
  page : Option String := none
  limit : Option String := none
deriving DecidableEq, Repr

/-- A JavaScript number that holds an integer, an infinity or `NaN`. -/
inductive JsNumber where
  | nan
  | finite (value : Int)
  | infinity (negative : Bool)
deriving DecidableEq, Repr

/-- The `pagination` object of a listing response. -/
structure Pagination where
  currentPage : JsNumber
  totalPages : JsNumber
  totalVideos : Nat
  hasNextPage : Bool
  hasPreviousPage : Bool
  limit : JsNumber
deriving DecidableEq, Repr

/-- The object `{title, publishedAt}` of the statistics response. -/
structure VideoBrief where
  title : String
  publishedAt : Int
deriving DecidableEq, Repr

/-- The JSON body next to `success`. -/
inductive Payload where
  | message (text : String)
  | listing (videos : List VideoView) (searchQuery : Option String) (pagination : Pagination)
  | stats (totalVideos : Nat) (latestVideo oldestVideo : Option VideoBrief)
deriving DecidableEq, Repr

/-- What a handler sends: `res.status(..).json({success, ..})`. -/
structure Response where
  status : Nat
  success : Bool
  payload : Payload
deriving DecidableEq, Repr

/-- A handler run: the response and the calls made on the model, in order. -/
structure Outcome where
  response : Response
  reads : List StoreOp
deriving DecidableEq, Repr

/-- The body `res.status(400).json({success: false, message})`. -/
def badRequest (text : String) : Response :=
  { status := 400, success := false, payload := Payload.message text }

/-- The body sent by every `catch` branch. -/
def internalError : Response :=
  { status := 500, success := false, payload := Payload.message "Internal server error" }

/-- The message of the pagination guard. -/
def paginationMessage : String :=
  "Invalid pagination parameters. Page must be >= 1, limit must be between 1 and 100"

/-! ## Numbers: doubles, `parseInt` and the defaults -/

/-- White space as `String.prototype.trim`, `\s` and `parseInt` see it
(WhiteSpace and LineTerminator code points). -/
def isJsSpace (c : Char) : Bool :=
  let n := c.toNat
  n == 0x09 || n == 0x0A || n == 0x0B || n == 0x0C || n == 0x0D || n == 0x20 ||
  n == 0xA0 || n == 0x1680 || (0x2000 ≤ n && n ≤ 0x200A) || n == 0x2028 ||
  n == 0x2029 || n == 0x202F || n == 0x205F || n == 0x3000 || n == 0xFEFF

/-- Halves `q` until it fits the 53 bits of a double significand: the result is
the quotient, the number of halvings, the last bit shifted out and whether a 1
was shifted out before it. -/
def shrink : Nat → Nat → Nat → Bool → Bool → Nat × Nat × Bool × Bool
  | 0, q, e, g, s => (q, e, g, s)
  | fuel + 1, q, e, g, s =>
    if q < 9007199254740992 then (q, e, g, s)
    else shrink fuel (q / 2) (e + 1) (q % 2 == 1) (s || g)

/-- The double nearest to a natural number (ties to the even significand), as the
integer it holds; `none` when the number rounds beyond the largest double, that
is to `Infinity`. -/
def nearestDouble (m : Nat) : Option Nat :=
  match shrink m m 0 false false with
  | (q, e, g, s) =>
    let rounded := if g && (s || q % 2 == 1) then q + 1 else q
    if 971 < e ∨ (e = 971 ∧ rounded = 9007199254740992) then none
    else some (rounded * 2 ^ e)

/-- The Number value of a mathematical integer. -/
def numberOfInt (v : Int) : JsNumber :=
  match nearestDouble v.natAbs with
  | some r => JsNumber.finite (if v < 0 then -(r : Int) else (r : Int))
  | none => JsNumber.infinity (decide (v < 0))

/-- The value of a digit in the given radix, if it is one. -/
def digitValue (radix : Nat) (c : Char) : Option Nat :=
  let n := c.toNat
  let v : Option Nat :=
    if 48 ≤ n ∧ n ≤ 57 then some (n - 48)
    else if 97 ≤ n ∧ n ≤ 122 then some (n - 97 + 10)
    else if 65 ≤ n ∧ n ≤ 90 then some (n - 65 + 10)
    else none
  match v with
  | some d => if d < radix then some d else none
  | none => none

/-- The longest prefix of digits, read in the radix; `none` when it is empty. -/
def readDigits (radix : Nat) : List Char → Option Nat → Option Nat
  | [], acc => acc
  | c :: cs, acc =>
    match digitValue radix c with
    | some d => readDigits radix cs (some (acc.getD 0 * radix + d))
    | none => acc

/-- The global `parseInt(value)` with no radix argument: the double nearest to the
integer the digits denote, `NaN` without digits. An absent parameter is converted
to the string "undefined" first, as ToString does. -/
def parseInt (value : Option String) : JsNumber :=
  let input : List Char := (value.getD "undefined").toList
  let s := input.dropWhile isJsSpace
  let negative : Bool := s.head? == some '-'
  let s := if s.head? == some '-' || s.head? == some '+' then s.tail else s
  let hex : Bool := match s with
    | '0' :: 'x' :: _ => true
    | '0' :: 'X' :: _ => true
    | _ => false
  let magnitude := if hex then readDigits 16 (s.drop 2) none else readDigits 10 s none
  match magnitude with
  | none => JsNumber.nan
  | some m => numberOfInt (if negative then -(m : Int) else (m : Int))

/-- The expression `n || fallback` on a number: `NaN` and `0` are falsy. -/
def orDefault (n : JsNumber) (fallback : JsNumber) : JsNumber :=
  match n with
  | JsNumber.nan => fallback
  | JsNumber.finite v => if v = 0 then fallback else JsNumber.finite v
  | JsNumber.infinity negative => JsNumber.infinity negative

/-- The handler variable `page = parseInt(req.query.page) || 1`. -/
def pageOf (req : Request) : JsNumber := orDefault (parseInt req.page) (JsNumber.finite 1)

/-- The handler variable `limit = parseInt(req.query.limit) || 10`. -/
def limitOf (req : Request) : JsNumber := orDefault (parseInt req.limit) (JsNumber.finite 10)

/-- The comparison `a < b` of two numbers; false when one of them is `NaN`. -/
def jsLt : JsNumber → JsNumber → Bool
  | JsNumber.finite a, JsNumber.finite b => decide (a < b)
  | JsNumber.finite _, JsNumber.infinity negative => !negative
  | JsNumber.infinity negative, JsNumber.finite _ => negative
  | JsNumber.infinity a, JsNumber.infinity b => a && !b
  | _, _ => false

/-- The difference `a - b` of two numbers. -/
def jsSub : JsNumber → JsNumber → JsNumber
  | JsNumber.finite a, JsNumber.finite b => numberOfInt (a - b)
  | JsNumber.finite _, JsNumber.infinity negative => JsNumber.infinity (!negative)
  | JsNumber.infinity negative, JsNumber.finite _ => JsNumber.infinity negative
  | JsNumber.infinity a, JsNumber.infinity b =>
    if a = b then JsNumber.nan else JsNumber.infinity a
  | _, _ => JsNumber.nan

/-- The product `a * b` of two numbers. -/
def jsMul : JsNumber → JsNumber → JsNumber
  | JsNumber.finite a, JsNumber.finite b => numberOfInt (a * b)
  | JsNumber.finite a, JsNumber.infinity negative =>
    if a = 0 then JsNumber.nan else JsNumber.infinity (xor (decide (a < 0)) negative)
  | JsNumber.infinity negative, JsNumber.finite b =>
    if b = 0 then JsNumber.nan else JsNumber.infinity (xor negative (decide (b < 0)))
  | JsNumber.infinity a, JsNumber.infinity b => JsNumber.infinity (xor a b)
  | _, _ => JsNumber.nan

/-- The handler variable `skip = (page - 1) * limit`. It is `NaN` or an infinity
exactly when the double product is; a finite product is kept as the exact
integer: the double differs from it only above 2^53, where both lie beyond the
last document of a collection. -/
def offsetOf (page limit : JsNumber) : JsNumber :=
  match jsMul (jsSub page (JsNumber.finite 1)) limit, page, limit with
  | JsNumber.finite _, JsNumber.finite p, JsNumber.finite l => JsNumber.finite ((p - 1) * l)
  | product, _, _ => product

/-- The guard `page < 1 || limit < 1 || limit > 100`. -/
def pagingRejected (page limit : JsNumber) : Bool :=
  jsLt page (JsNumber.finite 1) || jsLt limit (JsNumber.finite 1) ||
    jsLt (JsNumber.finite 100) limit

/-! ## Sorting and paging -/

/-- The order of `.sort({ publishedAt: -1, _id: 1 })`: newest first, ties by
ascending `_id`. -/
def pageOrder (a b : VideoDoc) : Prop :=
  b.publishedAt < a.publishedAt ∨ (a.publishedAt = b.publishedAt ∧ a._id ≤ b._id)

instance : DecidableRel pageOrder := fun a b => by
  unfold pageOrder; exact inferInstance

/-- The strict part of `pageOrder`: `a` sorts before `b`. -/
def sortsBefore (a b : VideoDoc) : Prop :=
  b.publishedAt < a.publishedAt ∨ (a.publishedAt = b.publishedAt ∧ a._id < b._id)

instance : DecidableRel sortsBefore := fun a b => by
  unfold sortsBefore; exact inferInstance

/-- The cursor `.sort({ publishedAt: -1, _id: 1 })` over the documents. -/
def sortForPaging (docs : List VideoDoc) : List VideoDoc :=
  docs.insertionSort pageOrder

/-- The ceiling of `totalVideos / limit` for a positive `limit`. -/
def ceilDiv (totalVideos : Nat) (limit : Int) : Int :=
  ((totalVideos : Int) + limit - 1) / limit

/-- The expression `Math.ceil(totalVideos / limit)`. -/
def jsCeilDiv (totalVideos : Nat) (limit : JsNumber) : JsNumber :=
  match limit with
  | JsNumber.nan => JsNumber.nan
  | JsNumber.infinity _ => JsNumber.finite 0
  | JsNumber.finite l =>
    if 0 < l then JsNumber.finite (ceilDiv totalVideos l)
    else if l < 0 then JsNumber.finite (-((totalVideos : Int) / (-l)))
    else if totalVideos = 0 then JsNumber.nan
    else JsNumber.infinity false

/-- The chain `.skip(skip).limit(limit)` on a sorted cursor; `none` when the find
is rejected, which happens for a `skip` that is not a finite number; a finite
`skip` is taken as it is. The guard leaves only `skip ≥ 0` and `1 ≤ limit ≤ 100`
to reach it. -/
def cursorPage (sorted : List VideoDoc) : JsNumber → JsNumber → Option (List VideoDoc)
  | JsNumber.finite skip, JsNumber.finite limit =>
    some ((sorted.drop skip.toNat).take limit.toNat)
  | _, _ => none

/-- The `pagination` object both listing handlers build. -/
def mkPagination (page limit : JsNumber) (totalVideos : Nat) : Pagination :=
  let totalPages := jsCeilDiv totalVideos limit
  { currentPage := page, totalPages := totalPages, totalVideos := totalVideos,
    hasNextPage := jsLt page totalPages, hasPreviousPage := jsLt (JsNumber.finite 1) page,
    limit := limit }

/-! ## `getVideos` -/

/-- The handler `getVideos` of `video.controller.js`. -/
def getVideos (req : Request) (store : Store) : Outcome :=
  let page := pageOf req
  let limit := limitOf req
  let skip := offsetOf page limit
  if pagingRejected page limit then
    { response := badRequest paginationMessage, reads := [] }
  else
    match store with
    | Store.down => { response := internalError, reads := [StoreOp.find] }
    | Store.up docs =>
      match cursorPage (sortForPaging docs) skip limit with
      | none => { response := internalError, reads := [StoreOp.find] }
      | some found =>
        let videos := found.map selectNoV
        let totalVideos := docs.length
        { response :=
            { status := 200, success := true,
              payload := Payload.listing videos none (mkPagination page limit totalVideos) },
          reads := [StoreOp.find, StoreOp.countDocuments] }

/-! ## `searchVideos` -/

/-- The method `String.prototype.trim`. -/
def jsTrim (s : List Char) : List Char :=
  ((s.dropWhile isJsSpace).reverse.dropWhile isJsSpace).reverse

/-- The guard `!query || query.trim().length === 0`. -/
def isBlankQuery (q : Option String) : Bool :=
  match q with
  | none => true
  | some s => s.toList.isEmpty || (jsTrim s.toList).isEmpty

/-- The loop of `split(/\s+/)`: `current` collects the piece being read (reversed),
`inGap` tells that the previous character was white space. -/
def splitOnSpaces : List Char → Bool → List Char → List (List Char)
  | [], _, current => [current.reverse]
  | c :: cs, inGap, current =>
    if isJsSpace c then
      if inGap then splitOnSpaces cs true current
      else current.reverse :: splitOnSpaces cs true []
    else splitOnSpaces cs false (c :: current)

/-- The expression `query.trim().split(/\s+/)`. -/
def searchTerms (query : String) : List String :=
  (splitOnSpaces (jsTrim query.toList) false []).map String.mk

/-- The pattern characters with a syntactic role in a regular expression:
`^ $ \ . * + ? ( ) [ ] { } |`. -/
def isSyntaxCharacter (c : Char) : Bool :=
  [94, 36, 92, 46, 42, 43, 63, 40, 41, 91, 93, 123, 125, 124].contains c.toNat

/-- The pattern starts with a quantifier symbol `*`, `+` or `?`: there is nothing
to repeat and the `RegExp` constructor throws a SyntaxError. -/
def startsWithQuantifier (term : String) : Bool :=
  match term.toList with
  | c :: _ => [42, 43, 63].contains c.toNat
  | [] => false

/-- The regular-expression facility outside this repository (the `RegExp`
constructor and the matcher of the database): `fold` is the case folding of the
`i` flag, `beyond` the behaviour on the patterns that are not modelled below
(`none`: the constructor throws). -/
structure RegExpEngine where
  fold : Char → Char
  beyond : String → Option (String → Bool)

/-- The pattern, all of it, matches at the start of the subject, up to case. -/
def matchesHere (fold : Char → Char) : List Char → List Char → Bool
  | [], _ => true
  | _ :: _, [] => false
  | p :: ps, c :: cs => fold p == fold c && matchesHere fold ps cs

/-- The pattern matches somewhere in the subject, up to case. -/
def matchesSomewhere (fold : Char → Char) (pattern : List Char) : List Char → Bool
  | [] => matchesHere fold pattern []
  | c :: cs => matchesHere fold pattern (c :: cs) || matchesSomewhere fold pattern cs

/-- The expression `new RegExp(term, "i")`, as the test it performs on a field;
`none` when the constructor throws. A pattern without syntax characters matches
itself; a pattern that starts with a quantifier is a SyntaxError; the engine
decides the rest. -/
def newRegExp (eng : RegExpEngine) (term : String) : Option (String → Bool) :=
  if term.toList.all (fun c => !isSyntaxCharacter c) then
    some (fun subject => matchesSomewhere eng.fold term.toList subject.toList)
  else if startsWithQuantifier term then none
  else eng.beyond term

/-- The expression `searchTerms.map((term) => new RegExp(term, "i"))`; `none` when
one of the constructors throws. -/
def compileTerms (eng : RegExpEngine) : List String → Option (List (String → Bool))
  | [] => some []
  | t :: ts =>
    match newRegExp eng t with
    | none => none
    | some r =>
      match compileTerms eng ts with
      | none => none
      | some rs => some (r :: rs)

/-- The filter `{ $or: [{ title: { $in: titleRegexes } },
{ description: { $in: descriptionRegexes } }] }` on one document. -/
def searchCondition (titleRegexes descriptionRegexes : List (String → Bool))
    (d : VideoDoc) : Bool :=
  titleRegexes.any (fun r => r d.title) || descriptionRegexes.any (fun r => r d.description)

/-- The handler `searchVideos` of `video.controller.js`. -/
def searchVideos (eng : RegExpEngine) (req : Request) (store : Store) : Outcome :=
  let page := pageOf req
  let limit := limitOf req
  let skip := offsetOf page limit
  if isBlankQuery req.q then
    { response := badRequest "Search query is required", reads := [] }
  else if pagingRejected page limit then
    { response := badRequest paginationMessage, reads := [] }
  else
    let terms := searchTerms (req.q.getD "")
    match compileTerms eng terms, compileTerms eng terms with
    | some titleRegexes, some descriptionRegexes =>
      match store with
      | Store.down => { response := internalError, reads := [StoreOp.find] }
      | Store.up docs =>
        let matching := docs.filter (searchCondition titleRegexes descriptionRegexes)
        match cursorPage (sortForPaging matching) skip limit with
        | none => { response := internalError, reads := [StoreOp.find] }
        | some found =>
          let videos := found.map selectNoV
          let totalVideos := matching.length
          { response :=
              { status := 200, success := true,
                payload := Payload.listing videos req.q (mkPagination page limit totalVideos) },
            reads := [StoreOp.find, StoreOp.countDocuments] }
    | _, _ => { response := internalError, reads := [] }

/-! ## `getVideoStats` -/

/-- The query `Video.findOne().sort({ publishedAt: -1 })`. -/
def findLatest (docs : List VideoDoc) : Option VideoDoc :=
  (docs.insertionSort (fun a b => b.publishedAt ≤ a.publishedAt)).head?

/-- The query `Video.findOne().sort({ publishedAt: 1 })`. -/
def findOldest (docs : List VideoDoc) : Option VideoDoc :=
  (docs.insertionSort (fun a b => a.publishedAt ≤ b.publishedAt)).head?

/-- The expression `doc ? { title: doc.title, publishedAt: doc.publishedAt } : null`. -/
def briefOf (doc : Option VideoDoc) : Option VideoBrief :=
  match doc with
  | some d => some { title := d.title, publishedAt := d.publishedAt }
  | none => none

/-- The handler `getVideoStats` of `video.controller.js`. -/
def getVideoStats (store : Store) : Outcome :=
  match store with
  | Store.down => { response := internalError, reads := [StoreOp.countDocuments] }
  | Store.up docs =>
    let totalVideos := docs.length
    let latestVideo := findLatest docs
    let oldestVideo := findOldest docs
    { response :=
        { status := 200, success := true,
          payload := Payload.stats totalVideos (briefOf latestVideo) (briefOf oldestVideo) },
      reads := [StoreOp.countDocuments, StoreOp.findOne, StoreOp.findOne] }

/-! ## `fetchAndStoreVideos` -/

/-- The object `snippet.thumbnails` of a provider item; `default` is `none` when
it is missing or falsy. -/
structure RawThumbnails where
  default : Option Thumbnail
deriving DecidableEq, Repr

/-- The object `snippet` of a provider item; `publishedAt` is the instant its
date string denotes. -/
structure RawSnippet where
  title : String
  description : String
  publishedAt : Int
  thumbnails : Option RawThumbnails
  channelId : String
  channelTitle : String
deriving DecidableEq, Repr

/-- The object `id` of a provider item. -/
structure RawId where
  videoId : String
deriving DecidableEq, Repr

/-- One element of `response.data.items` as it arrives: `id` and `snippet` may be
missing. -/
structure ItemJson where
  id : Option RawId
  snippet : Option RawSnippet
deriving DecidableEq, Repr

/-- An element of `response.data.items` that has `id` and `snippet`. -/
structure RawItem where
  id : RawId
  snippet : RawSnippet
deriving DecidableEq, Repr

/-- The reads `videoData.id.videoId` and `videoData.snippet.title` that open the
object literal `video`: a missing `id` or `snippet` throws a TypeError. -/
def readItem (videoData : ItemJson) : Except String RawItem :=
  match videoData.id, videoData.snippet with
  | none, _ => Except.error "Cannot read properties of undefined (reading videoId)"
  | some _, none => Except.error "Cannot read properties of undefined (reading title)"
  | some id, some snippet => Except.ok { id := id, snippet := snippet }

/-- The element of `response.data.items` that carries the `id` and `snippet` of
an item. -/
def itemJson (item : RawItem) : ItemJson :=
  { id := some item.id, snippet := some item.snippet }

/-- The object `video` built for each item and passed to `findOneAndUpdate`. -/
structure VideoFields where
  videoId : String
  title : String
  description : String
  publishedAt : Int
  thumbnail : Thumbnail
  channelId : String
  channelTitle : String
deriving DecidableEq, Repr

/-- The literal `{ url: "", width: 0, height: 0 }`. -/
def emptyThumbnail : Thumbnail := { url := some "", width := some 0, height := some 0 }

/-- The expression `videoData.snippet.thumbnails?.default || { url: "", width: 0,
height: 0 }`: a `default` object that is there is taken as it is. -/
def thumbnailOf (s : RawSnippet) : Thumbnail :=
  match s.thumbnails with
  | none => emptyThumbnail
  | some t =>
    match t.default with
    | none => emptyThumbnail
    | some d => d

/-- The object literal `video` at the head of the loop body, for an item that has
`id` and `snippet`. -/
def normalize (videoData : RawItem) : VideoFields :=
  { videoId := videoData.id.videoId,
    title := videoData.snippet.title,
    description := videoData.snippet.description,
    publishedAt := videoData.snippet.publishedAt,
    thumbnail := thumbnailOf videoData.snippet,
    channelId := videoData.snippet.channelId,
    channelTitle := videoData.snippet.channelTitle }

/-- The update of a matched document: the paths of `video` are set, `updatedAt`
is refreshed, `_id`, `createdAt` and `__v` stay. -/
def applyUpdate (d : VideoDoc) (video : VideoFields) (now : Int) : VideoDoc :=
  { d with
    videoId := video.videoId, title := video.title, description := video.description,
    publishedAt := video.publishedAt, thumbnail := video.thumbnail,
    channelId := video.channelId, channelTitle := video.channelTitle, updatedAt := now }

/-- The document inserted when no document matches (`upsert: true`). -/
def newDocument (id : Nat) (video : VideoFields) (now : Int) : VideoDoc :=
  { _id := id, videoId := video.videoId, title := video.title,
    description := video.description, publishedAt := video.publishedAt,
    thumbnail := video.thumbnail, channelId := video.channelId,
    channelTitle := video.channelTitle, createdAt := now, updatedAt := now, __v := 0 }

/-- An `_id` above every `_id` of the collection. -/
def freshId (docs : List VideoDoc) : Nat :=
  (docs.map (fun d => d._id)).foldr max 0 + 1

/-- The first document with the `videoId` of `video` is updated. -/
def updateFirst (video : VideoFields) (now : Int) : List VideoDoc → List VideoDoc
  | [] => []
  | d :: ds =>
    if d.videoId = video.videoId then applyUpdate d video now :: ds
    else d :: updateFirst video now ds

/-- A successful `Video.findOneAndUpdate({ videoId: video.videoId }, video,
{ upsert: true, new: true })` at the instant `now`. -/
def findOneAndUpdate (docs : List VideoDoc) (video : VideoFields) (now : Int) :
    List VideoDoc :=
  if docs.any (fun d => decide (d.videoId = video.videoId)) then updateFirst video now docs
  else docs ++ [newDocument (freshId docs) video now]

/-- The error a rejected `findOneAndUpdate` throws. -/
structure UpsertError where
  code : Option Int
  message : String
deriving DecidableEq, Repr

/-- The lines the ingestion writes to the console. -/
inductive LogLine where
  | keyNotConfigured
  | saveError (videoId : String) (message : String)
  | summary (fetched : Nat) (saved : Nat)
  | fetchError (message : String)
deriving DecidableEq, Repr

/-- The state of the `for` loop of `fetchAndStoreVideos`; `thrown` is the error
that left the loop for the outer `catch`, if one did. -/
structure FetchState where
  docs : List VideoDoc
  savedCount : Nat
  attempts : List VideoFields
  log : List LogLine
  thrown : Option String
deriving DecidableEq, Repr

/-- The `for (const videoData of videos)` loop. The element at position `i` of the
batch is written at the instant `clock i`; `fault i` is the error its
`findOneAndUpdate` throws, if it throws. The object `video` is built before the
inner `try`: an element without `id` or `snippet` throws out of the loop. -/
def storeLoop (fault : Nat → Option UpsertError) (clock : Nat → Int) :
    Nat → List ItemJson → FetchState → FetchState
  | _, [], st => st
  | i, videoData :: rest, st =>
    match readItem videoData with
    | Except.error message => { st with thrown := some message }
    | Except.ok item =>
      let video := normalize item
      match fault i with
      | none =>
        storeLoop fault clock (i + 1) rest
          { docs := findOneAndUpdate st.docs video (clock i),
            savedCount := st.savedCount + 1,
            attempts := st.attempts ++ [video],
            log := st.log,
            thrown := st.thrown }
      | some error =>
        storeLoop fault clock (i + 1) rest
          { docs := st.docs,
            savedCount := st.savedCount,
            attempts := st.attempts ++ [video],
            log := if error.code ≠ some 11000 then
                st.log ++ [LogLine.saveError video.videoId error.message]
              else st.log,
            thrown := st.thrown }

/-- The function `fetchAndStoreVideos`: `apiKey` is `process.env.YOUTUBE_API_KEY`,
`fetched` the answer of the provider (`Except.error` when `axios.get` throws). An
error thrown out of the loop reaches the outer `catch`: it is logged and the
summary is not. -/
def fetchAndStoreVideos (apiKey : Option String) (fetched : Except String (List ItemJson))
    (fault : Nat → Option UpsertError) (clock : Nat → Int) (docs : List VideoDoc) :
    FetchState :=
  let start : FetchState :=
    { docs := docs, savedCount := 0, attempts := [], log := [], thrown := none }
  if apiKey = none ∨ apiKey = some "" ∨ apiKey = some "YOUR_YOUTUBE_API_KEY" then
    { start with log := [LogLine.keyNotConfigured] }
  else
    match fetched with
    | Except.error message =>
      { start with log := [LogLine.fetchError message], thrown := some message }
    | Except.ok videos =>
      let st := storeLoop fault clock 0 videos start
      match st.thrown with
      | some message => { st with log := st.log ++ [LogLine.fetchError message] }
      | none => { st with log := st.log ++ [LogLine.summary videos.length st.savedCount] }

/-! ## Observations, specification-side predicates and sample data -/

/-- A document with the given identity, texts and publication instant. -/
def sampleDoc (id : Nat) (title description : String) (publishedAt : Int) : VideoDoc :=
  { _id := id, videoId := toString id, title := title, description := description,
    publishedAt := publishedAt, thumbnail := emptyThumbnail, channelId := "UC1",
    channelTitle := "Channel", createdAt := 0, updatedAt := 0, __v := 0 }

/-- The `videos` list of a listing response (empty for any other response). -/
def videosOf (o : Outcome) : List VideoView :=
  match o.response.payload with
  | Payload.listing videos _ _ => videos
  | _ => []

/-- The `pagination` object of a listing response, if it is one. -/
def paginationOf (o : Outcome) : Option Pagination :=
  match o.response.payload with
  | Payload.listing _ _ pagination => some pagination
  | _ => none

/-- A term occurs in a text as a literal substring, up to the case folding. -/
def occursIn (fold : Char → Char) (term text : List Char) : Prop :=
  ∃ before mid after, text = before ++ mid ++ after ∧ mid.map fold = term.map fold

/-- The match rule in the words of the specification: some white-space-delimited
term of the trimmed query occurs, up to case, in the title or in the
description. -/
def literalMatch (fold : Char → Char) (query : String) (d : VideoDoc) : Prop :=
  ∃ t ∈ searchTerms query,
    occursIn fold t.toList d.title.toList ∨ occursIn fold t.toList d.description.toList

instance newestFirst_total :
    IsTotal VideoDoc (fun a b => b.publishedAt ≤ a.publishedAt) :=
  ⟨fun a b => le_total b.publishedAt a.publishedAt⟩

instance newestFirst_trans :
    IsTrans VideoDoc (fun a b => b.publishedAt ≤ a.publishedAt) :=
  ⟨fun _ _ _ hab hbc => le_trans hbc hab⟩

instance oldestFirst_total :
    IsTotal VideoDoc (fun a b => a.publishedAt ≤ b.publishedAt) :=
  ⟨fun a b => le_total a.publishedAt b.publishedAt⟩

instance oldestFirst_trans :
    IsTrans VideoDoc (fun a b => a.publishedAt ≤ b.publishedAt) :=
  ⟨fun _ _ _ hab hbc => le_trans hab hbc⟩

/-- The paths of a stored document that `video` sets. -/
def fieldsOf (d : VideoDoc) : VideoFields :=
  { videoId := d.videoId, title := d.title, description := d.description,
    publishedAt := d.publishedAt, thumbnail := d.thumbnail, channelId := d.channelId,
    channelTitle := d.channelTitle }

/-- A provider item with the given `videoId` and title. -/
def sampleItem (videoId title : String) : RawItem :=
  { id := { videoId := videoId },
    snippet := { title := title, description := "D", publishedAt := 5,
                 thumbnails := none, channelId := "c", channelTitle := "C" } }

/-- A collection of two documents. -/
def sampleStore : List VideoDoc :=
  [sampleDoc 1 "Cricket Highlights" "Football recap" 100, sampleDoc 2 "Tennis" "Final" 200]

/-- A thumbnail object carries all of `url`, `width` and `height`. -/
def thumbnailComplete (t : Thumbnail) : Prop :=
  t.url ≠ none ∧ t.width ≠ none ∧ t.height ≠ none

instance : DecidablePred thumbnailComplete := fun t => by
  unfold thumbnailComplete; exact inferInstance

/-- A provider item whose thumbnails are the given object. -/
def itemWithThumbnails (thumbnails : Option RawThumbnails) : RawItem :=
  { id := { videoId := "v1" },
    snippet := { title := "T", description := "D", publishedAt := 5,
                 thumbnails := thumbnails, channelId := "c", channelTitle := "C" } }

/-- The fault pattern in which only the second write of a batch is rejected, with
a validation error that carries no code. -/
def secondWriteFails (i : Nat) : Option UpsertError :=
  if i = 1 then some { code := none, message := "validation failed" } else none

/-- The order of `pageOrder` read on the returned objects: `publishedAt`
descending, ties by `_id` ascending. -/
def viewOrder (a b : VideoView) : Prop :=
  b.publishedAt < a.publishedAt ∨ (a.publishedAt = b.publishedAt ∧ a._id ≤ b._id)

/-- The concatenation of the `videos` lists that `getVideos` returns for the
requests `reqs 1`, ..., `reqs n`. -/
def concatPages (reqs : Nat → Request) (docs : List VideoDoc) (n : Nat) : List VideoView :=
  ((List.range n).map fun k => videosOf (getVideos (reqs (k + 1)) (Store.up docs))).flatten

instance pageOrder_total : IsTotal VideoDoc pageOrder :=
  ⟨fun a b => by unfold pageOrder; omega⟩

instance pageOrder_trans : IsTrans VideoDoc pageOrder :=
  ⟨fun a b c hab hbc => by unfold pageOrder at *; omega⟩

/-- The requests for page 1 and page 2 with one record a page. -/
def onePerPage (p : Nat) : Request :=
  { page := some (if p = 1 then "1" else "2"), limit := some "1" }

/-- The returned object `a` sorts strictly before the returned object `b` in the
cursor order. -/
def viewBefore (a b : VideoView) : Prop :=
  b.publishedAt < a.publishedAt ∨ (a.publishedAt = b.publishedAt ∧ a._id < b._id)

/-- Sorts before, or is the same document. -/
def beforeOrSame (a b : VideoDoc) : Prop := sortsBefore a b ∨ a = b

instance beforeOrSame_antisymm : IsAntisymm VideoDoc beforeOrSame :=
  ⟨fun a b hab hba => by
    rcases hab with hab | rfl
    · rcases hba with hba | rfl
      · exfalso; unfold sortsBefore at *; omega
      · rfl
    · rfl⟩

instance : DecidableRel viewBefore := fun a b => by
  unfold viewBefore; exact inferInstance

/-- An engine that folds case on ASCII letters and rejects every pattern outside
the modelled ones. -/
def asciiEngine : RegExpEngine := { fold := Char.toLower, beyond := fun _ => none }

/-- Fifteen documents, the first the newest. -/
def fifteenDocs : List VideoDoc :=
  (List.range 15).map fun i => sampleDoc (i + 1) "Cricket" "Match" (100 - (i : Int))

/-- The pagination contract in the words of the specification, for the page
`page` of size `limit` over the matching records in cursor order `sorted`:
`currentPage = page`, `totalVideos = N`, `totalPages = ceil(N / limit)` (the integer
`c` with `limit * (c - 1) < N ≤ limit * c`), `hasNextPage = (page < totalPages)`,
`hasPreviousPage = (page > 1)`, and `videos` holds the
`min(limit, max(0, N - (page - 1) * limit))` records that follow the first
`(page - 1) * limit` ones. -/
def PaginationContract (page limit : Int) (sorted : List VideoDoc)
    (videos : List VideoView) (pg : Pagination) : Prop :=
  pg.currentPage = JsNumber.finite page ∧ pg.limit = JsNumber.finite limit ∧
  pg.totalVideos = sorted.length ∧
  (∃ c : Int, pg.totalPages = JsNumber.finite c ∧
    limit * (c - 1) < sorted.length ∧ (sorted.length : Int) ≤ limit * c ∧
    pg.hasNextPage = decide (page < c)) ∧
  pg.hasPreviousPage = decide (page > 1) ∧
  (videos.length : Int) = min limit (max 0 ((sorted.length : Int) - (page - 1) * limit)) ∧
  videos = ((sorted.drop ((page - 1) * limit).toNat).take limit.toNat).map selectNoV

/-! ## Properties -/

theorem shrink_spec (fuel q e : Nat) (g s : Bool) :
    ∃ q' k g' s', shrink fuel q e g s = (q', e + k, g', s') ∧ q' * 2 ^ k ≤ q ∧
      (0 < k → 4503599627370496 ≤ q') ∧
      (9007199254740992 ≤ q → 0 < fuel → 0 < k) ∧
      (k = 0 → q' = q ∧ g' = g) := by
  induction fuel generalizing q e g s with
  | zero => exact ⟨q, 0, g, s, by simp [shrink], by simp, by simp, by simp, by simp⟩
  | succ fuel ih =>
    by_cases hq : q < 9007199254740992
    · exact ⟨q, 0, g, s, by simp [shrink, hq], by simp, by simp,
        fun h => absurd h (by omega), by simp⟩
    · obtain ⟨q', k, g', s', hs, hle, hbig, -, hzero⟩ :=
        ih (q / 2) (e + 1) (q % 2 == 1) (s || g)
      refine ⟨q', k + 1, g', s', ?_, ?_, ?_, fun _ _ => Nat.succ_pos k, ?_⟩
      · simp only [shrink, hq, if_false, hs]
        congr 2
        omega
      · rw [pow_succ]
        have := Nat.div_mul_le_self q 2
        calc q' * (2 ^ k * 2) = q' * 2 ^ k * 2 := by ring
          _ ≤ q / 2 * 2 := Nat.mul_le_mul_right 2 hle
          _ ≤ q := this
      · intro _
        by_cases hk : k = 0
        · rw [(hzero hk).1]; omega
        · exact hbig (Nat.pos_of_ne_zero hk)
      · intro h; omega

theorem nearestDouble_small (m : Nat) (h : m < 9007199254740992) :
    nearestDouble m = some m := by
  cases m with
  | zero => simp [nearestDouble, shrink]
  | succ n => simp [nearestDouble, shrink, h]

theorem nearestDouble_shape (m : Nat) :
    ∃ k rounded,
      nearestDouble m =
        (if 971 < k ∨ (k = 971 ∧ rounded = 9007199254740992) then none
          else some (rounded * 2 ^ k)) ∧
      (k = 0 → rounded = m ∧ m < 9007199254740992) ∧
      (0 < k → 4503599627370496 * 2 ^ k ≤ m) := by
  obtain ⟨q', k, g', s', hs, hle, hbig, hfuel, hzero⟩ := shrink_spec m m 0 false false
  refine ⟨k, if (g' && (s' || q' % 2 == 1)) = true then q' + 1 else q', ?_, ?_, ?_⟩
  · simp only [nearestDouble, hs, Nat.zero_add]
  · intro hk
    obtain ⟨rfl, rfl⟩ := hzero hk
    refine ⟨by simp, ?_⟩
    by_contra hm
    have := hfuel (by omega) (by omega)
    omega
  · intro hk
    exact le_trans (Nat.mul_le_mul_right _ (hbig hk)) hle

theorem nearestDouble_finite (m : Nat) (h : m < 2 ^ 60) : nearestDouble m ≠ none := by
  obtain ⟨k, rounded, heq, -, hbig⟩ := nearestDouble_shape m
  have hk : k < 971 := by
    by_contra hk
    have h1 := hbig (by omega)
    have h2 : 2 ^ 8 ≤ 2 ^ k := Nat.pow_le_pow_right (by norm_num) (by omega)
    have h3 : 4503599627370496 * 2 ^ 8 ≤ 4503599627370496 * 2 ^ k :=
      Nat.mul_le_mul_left _ h2
    have h4 : (4503599627370496 : Nat) * 2 ^ 8 = 2 ^ 60 := by norm_num
    omega
  rw [heq, if_neg (by omega)]
  simp

theorem nearestDouble_ne_odd (m : Nat) : nearestDouble m ≠ some 9007199254740993 := by
  obtain ⟨k, rounded, heq, hzero, -⟩ := nearestDouble_shape m
  rw [heq]
  split
  · simp
  · intro h
    simp only [Option.some.injEq] at h
    by_cases hk : k = 0
    · obtain ⟨rfl, hm⟩ := hzero hk
      subst hk
      simp only [pow_zero, Nat.mul_one] at h
      omega
    · obtain ⟨j, rfl⟩ : ∃ j, k = j + 1 := ⟨k - 1, by omega⟩
      rw [pow_succ] at h
      have : rounded * (2 ^ j * 2) = 2 * (rounded * 2 ^ j) := by ring
      rw [this] at h
      omega

theorem numberOfInt_small (v : Int) (h0 : 0 ≤ v) (h : v < 9007199254740992) :
    numberOfInt v = JsNumber.finite v := by
  have hn : v.natAbs < 9007199254740992 := by omega
  simp only [numberOfInt, nearestDouble_small _ hn]
  rw [if_neg (by omega)]
  congr 1
  omega

theorem numberOfInt_finite (v : Int) (h0 : 0 ≤ v) (h : v < 2 ^ 60) :
    ∃ r, numberOfInt v = JsNumber.finite r := by
  have hn : v.natAbs < 2 ^ 60 := by
    have : (v.natAbs : Int) = v := Int.natAbs_of_nonneg h0
    have h' : (v.natAbs : Int) < ((2 ^ 60 : Nat) : Int) := by rw [this]; exact_mod_cast h
    exact_mod_cast h'
  cases hd : nearestDouble v.natAbs with
  | none => exact absurd hd (nearestDouble_finite _ hn)
  | some r =>
    refine ⟨if v < 0 then -(r : Int) else (r : Int), ?_⟩
    simp only [numberOfInt, hd]

theorem numberOfInt_ne_odd (v : Int) : numberOfInt v ≠ JsNumber.finite 9007199254740993 := by
  unfold numberOfInt
  cases hd : nearestDouble v.natAbs with
  | none => simp
  | some r =>
    have hr : r ≠ 9007199254740993 := fun h => nearestDouble_ne_odd _ (h ▸ hd)
    simp only [ne_eq, JsNumber.finite.injEq]
    split <;> omega

theorem pageOf_ne_odd (req : Request) : pageOf req ≠ JsNumber.finite 9007199254740993 := by
  unfold pageOf parseInt
  simp only
  split
  · simp [orDefault]
  · rename_i m _
    cases hn : numberOfInt (if (((req.page.getD "undefined").toList.dropWhile isJsSpace).head?
        == some '-') = true then -(m : Int) else (m : Int)) with
    | nan => simp [orDefault]
    | infinity b => simp [orDefault]
    | finite v =>
      have := numberOfInt_ne_odd (if (((req.page.getD "undefined").toList.dropWhile
        isJsSpace).head? == some '-') = true then -(m : Int) else (m : Int))
      rw [hn] at this
      simp only [orDefault]
      split
      · simp
      · exact this

theorem getVideos_invalid (req : Request) (store : Store)
    (h : pagingRejected (pageOf req) (limitOf req) = true) :
    getVideos req store = { response := badRequest paginationMessage, reads := [] } := by
  unfold getVideos
  simp only [h, if_true]

theorem getVideos_found (req : Request) (docs found : List VideoDoc)
    (h : pagingRejected (pageOf req) (limitOf req) = false)
    (hc : cursorPage (sortForPaging docs) (offsetOf (pageOf req) (limitOf req)) (limitOf req)
      = some found) :
    getVideos req (Store.up docs) =
      { response :=
          { status := 200, success := true,
            payload := Payload.listing (found.map selectNoV) none
              (mkPagination (pageOf req) (limitOf req) docs.length) },
        reads := [StoreOp.find, StoreOp.countDocuments] } := by
  unfold getVideos
  simp only [h, Bool.false_eq_true, if_false, hc]

theorem getVideos_refused (req : Request) (docs : List VideoDoc)
    (h : pagingRejected (pageOf req) (limitOf req) = false)
    (hc : cursorPage (sortForPaging docs) (offsetOf (pageOf req) (limitOf req)) (limitOf req)
      = none) :
    getVideos req (Store.up docs) = { response := internalError, reads := [StoreOp.find] } := by
  unfold getVideos
  simp only [h, Bool.false_eq_true, if_false, hc]

theorem searchVideos_blank (eng : RegExpEngine) (req : Request) (store : Store)
    (h : isBlankQuery req.q = true) :
    searchVideos eng req store =
      { response := badRequest "Search query is required", reads := [] } := by
  unfold searchVideos
  simp only [h, if_true]

theorem searchVideos_invalid (eng : RegExpEngine) (req : Request) (store : Store)
    (hq : isBlankQuery req.q = false)
    (h : pagingRejected (pageOf req) (limitOf req) = true) :
    searchVideos eng req store =
      { response := badRequest paginationMessage, reads := [] } := by
  unfold searchVideos
  simp only [hq, Bool.false_eq_true, if_false, h, if_true]

theorem searchVideos_throws (eng : RegExpEngine) (req : Request) (store : Store)
    (hq : isBlankQuery req.q = false)
    (h : pagingRejected (pageOf req) (limitOf req) = false)
    (hc : compileTerms eng (searchTerms (req.q.getD "")) = none) :
    searchVideos eng req store = { response := internalError, reads := [] } := by
  unfold searchVideos
  simp only [hq, Bool.false_eq_true, if_false, h, hc]

theorem searchVideos_found (eng : RegExpEngine) (req : Request) (docs found : List VideoDoc)
    (regexes : List (String → Bool))
    (hq : isBlankQuery req.q = false)
    (h : pagingRejected (pageOf req) (limitOf req) = false)
    (hc : compileTerms eng (searchTerms (req.q.getD "")) = some regexes)
    (hf : cursorPage (sortForPaging (docs.filter (searchCondition regexes regexes)))
      (offsetOf (pageOf req) (limitOf req)) (limitOf req) = some found) :
    searchVideos eng req (Store.up docs) =
      { response :=
          { status := 200, success := true,
            payload := Payload.listing (found.map selectNoV) req.q
              (mkPagination (pageOf req) (limitOf req)
                (docs.filter (searchCondition regexes regexes)).length) },
        reads := [StoreOp.find, StoreOp.countDocuments] } := by
  unfold searchVideos
  simp only [hq, Bool.false_eq_true, if_false, h, hc, hf]

theorem pageOf_ne_nan (req : Request) : pageOf req ≠ JsNumber.nan := by
  unfold pageOf orDefault
  split
  · simp
  · split <;> simp
  · simp

theorem limitOf_ne_nan (req : Request) : limitOf req ≠ JsNumber.nan := by
  unfold limitOf orDefault
  split
  · simp
  · split <;> simp
  · simp

/-- What the guard lets through: a limit between 1 and 100, and a page that is
at least 1 or `Infinity`. -/
theorem guard_passes (page limit : JsNumber) (hp : page ≠ JsNumber.nan)
    (hl : limit ≠ JsNumber.nan) (h : pagingRejected page limit = false) :
    (∃ l, limit = JsNumber.finite l ∧ 1 ≤ l ∧ l ≤ 100) ∧
    (page = JsNumber.infinity false ∨ ∃ p, page = JsNumber.finite p ∧ 1 ≤ p) := by
  unfold pagingRejected at h
  simp only [Bool.or_eq_false_iff] at h
  obtain ⟨⟨h1, h2⟩, h3⟩ := h
  constructor
  · cases limit with
    | nan => exact absurd rfl hl
    | finite l =>
      simp only [jsLt, decide_eq_false_iff_not, not_lt] at h2 h3
      exact ⟨l, rfl, h2, h3⟩
    | infinity b =>
      cases b <;> simp [jsLt] at h2 h3
  · cases page with
    | nan => exact absurd rfl hp
    | finite p =>
      simp only [jsLt, decide_eq_false_iff_not, not_lt] at h1
      exact Or.inr ⟨p, rfl, h1⟩
    | infinity b =>
      cases b
      · exact Or.inl rfl
      · simp [jsLt] at h1

theorem offsetOf_cases (p l : Int) :
    offsetOf (JsNumber.finite p) (JsNumber.finite l) = JsNumber.finite ((p - 1) * l) ∨
    ∀ sorted, cursorPage sorted (offsetOf (JsNumber.finite p) (JsNumber.finite l))
      (JsNumber.finite l) = none := by
  unfold offsetOf
  cases jsMul (jsSub (JsNumber.finite p) (JsNumber.finite 1)) (JsNumber.finite l) with
  | nan => right; intro sorted; rfl
  | finite v => left; rfl
  | infinity b => right; intro sorted; rfl

theorem offsetOf_of_finite (p l s : Int)
    (h : offsetOf (JsNumber.finite p) (JsNumber.finite l) = JsNumber.finite s) :
    s = (p - 1) * l := by
  unfold offsetOf at h
  cases hm : jsMul (jsSub (JsNumber.finite p) (JsNumber.finite 1)) (JsNumber.finite l) with
  | nan => rw [hm] at h; simp at h
  | finite v => rw [hm] at h; simp only [JsNumber.finite.injEq] at h; exact h.symm
  | infinity b => rw [hm] at h; simp at h

theorem offsetOf_safe (p l : Int) (hp1 : 1 ≤ p) (hp : p ≤ 9007199254740992)
    (hl1 : 1 ≤ l) (hl : l ≤ 100) :
    offsetOf (JsNumber.finite p) (JsNumber.finite l) = JsNumber.finite ((p - 1) * l) := by
  have hsub : jsSub (JsNumber.finite p) (JsNumber.finite 1) = JsNumber.finite (p - 1) := by
    simp only [jsSub]
    exact numberOfInt_small _ (by omega) (by omega)
  have hprod : 0 ≤ (p - 1) * l := mul_nonneg (by omega) (by omega)
  have hlt : (p - 1) * l < 2 ^ 60 := by
    have h1 : (p - 1) * l ≤ 9007199254740991 * 100 :=
      mul_le_mul (by omega) hl (by omega) (by norm_num)
    have h2 : (9007199254740991 : Int) * 100 < 2 ^ 60 := by norm_num
    omega
  obtain ⟨r, hr⟩ := numberOfInt_finite _ hprod hlt
  unfold offsetOf
  rw [hsub]
  simp only [jsMul, hr]

theorem offsetOf_infinite_page (l : Int) (hl : 1 ≤ l) (sorted : List VideoDoc) :
    cursorPage sorted (offsetOf (JsNumber.infinity false) (JsNumber.finite l))
      (JsNumber.finite l) = none := by
  have hl0 : l ≠ 0 := by omega
  simp [offsetOf, jsSub, jsMul, hl0, cursorPage]

theorem getVideos_on (req : Request) (docs : List VideoDoc) (p l s : Int)
    (hp : pageOf req = JsNumber.finite p) (hl : limitOf req = JsNumber.finite l)
    (ho : offsetOf (JsNumber.finite p) (JsNumber.finite l) = JsNumber.finite s)
    (hg : pagingRejected (JsNumber.finite p) (JsNumber.finite l) = false) :
    getVideos req (Store.up docs) =
      { response :=
          { status := 200, success := true,
            payload := Payload.listing
              ((((sortForPaging docs).drop s.toNat).take l.toNat).map selectNoV) none
              (mkPagination (JsNumber.finite p) (JsNumber.finite l) docs.length) },
        reads := [StoreOp.find, StoreOp.countDocuments] } := by
  rw [getVideos_found req docs (((sortForPaging docs).drop s.toNat).take l.toNat)
    (by rw [hp, hl]; exact hg) (by rw [hp, hl, ho]; rfl), hp, hl]

theorem searchVideos_on (eng : RegExpEngine) (req : Request) (docs : List VideoDoc)
    (regexes : List (String → Bool)) (p l s : Int)
    (hq : isBlankQuery req.q = false)
    (hc : compileTerms eng (searchTerms (req.q.getD "")) = some regexes)
    (hp : pageOf req = JsNumber.finite p) (hl : limitOf req = JsNumber.finite l)
    (ho : offsetOf (JsNumber.finite p) (JsNumber.finite l) = JsNumber.finite s)
    (hg : pagingRejected (JsNumber.finite p) (JsNumber.finite l) = false) :
    searchVideos eng req (Store.up docs) =
      { response :=
          { status := 200, success := true,
            payload := Payload.listing
              ((((sortForPaging (docs.filter (searchCondition regexes regexes))).drop
                s.toNat).take l.toNat).map selectNoV) req.q
              (mkPagination (JsNumber.finite p) (JsNumber.finite l)
                (docs.filter (searchCondition regexes regexes)).length) },
        reads := [StoreOp.find, StoreOp.countDocuments] } := by
  rw [searchVideos_found eng req docs
    (((sortForPaging (docs.filter (searchCondition regexes regexes))).drop s.toNat).take
      l.toNat) regexes hq (by rw [hp, hl]; exact hg) hc (by rw [hp, hl, ho]; rfl), hp, hl]

/-- C1: at `page=0` and at `limit=0` the default of `parseInt(..) || n` replaces the
zero before the guard runs, so `getVideos` and `searchVideos` answer 200 with
`success=true` (page 1, limit 10) after reading the store, where the claim expects
a 400; the bound `limit=101` is rejected with 400 and no read. -/
theorem zero_page_or_limit_is_accepted (eng : RegExpEngine) (docs : List VideoDoc) :
    (getVideos { page := some "0" } (Store.up docs)).response.status = 200 ∧
    (getVideos { page := some "0" } (Store.up docs)).response.success = true ∧
    (getVideos { page := some "0" } (Store.up docs)).reads
      = [StoreOp.find, StoreOp.countDocuments] ∧
    (getVideos { limit := some "0" } (Store.up docs)).response.status = 200 ∧
    (getVideos { limit := some "0" } (Store.up docs)).response.success = true ∧
    (searchVideos eng { q := some "cricket", page := some "0" } (Store.up docs)).response.status
      = 200 ∧
    (searchVideos eng { q := some "cricket", limit := some "0" } (Store.up docs)).response.status
      = 200 ∧
    getVideos { page := some "0" } (Store.up docs) = getVideos { } (Store.up docs) ∧
    getVideos { limit := some "101" } (Store.up docs)
      = { response := badRequest paginationMessage, reads := [] } := by
  have hc : compileTerms eng (searchTerms "cricket")
      = some [fun subject => matchesSomewhere eng.fold "cricket".toList subject.toList] := by
    have ht : searchTerms "cricket" = ["cricket"] := by decide
    have hs : ("cricket".toList.all fun c => !isSyntaxCharacter c) = true := by decide
    rw [ht]
    simp only [compileTerms, newRegExp, hs, if_true]
  refine ⟨?_, ?_, ?_, ?_, ?_, ?_, ?_, ?_, ?_⟩
  · rw [getVideos_on { page := some "0" } docs 1 10 0
      (by decide) (by decide) (by decide) (by decide)]
  · rw [getVideos_on { page := some "0" } docs 1 10 0
      (by decide) (by decide) (by decide) (by decide)]
  · rw [getVideos_on { page := some "0" } docs 1 10 0
      (by decide) (by decide) (by decide) (by decide)]
  · rw [getVideos_on { limit := some "0" } docs 1 10 0
      (by decide) (by decide) (by decide) (by decide)]
  · rw [getVideos_on { limit := some "0" } docs 1 10 0
      (by decide) (by decide) (by decide) (by decide)]
  · rw [searchVideos_on eng { q := some "cricket", page := some "0" } docs _ 1 10 0
      (by decide) hc (by decide) (by decide) (by decide) (by decide)]
  · rw [searchVideos_on eng { q := some "cricket", limit := some "0" } docs _ 1 10 0
      (by decide) hc (by decide) (by decide) (by decide) (by decide)]
  · rw [getVideos_on { page := some "0" } docs 1 10 0
        (by decide) (by decide) (by decide) (by decide),
      getVideos_on { } docs 1 10 0 (by decide) (by decide) (by decide) (by decide)]
  · exact getVideos_invalid _ _ (by decide)

/-- C6: for the non-blank query `why cricket ?` with default page and limit, the
term `?` makes `new RegExp` throw, and `searchVideos` answers 500 with
`success=false`, where the claim expects `success=true` with `searchQuery` set. -/
theorem question_mark_query_is_internal_error (eng : RegExpEngine) (store : Store) :
    isBlankQuery (some "why cricket ?") = false ∧
    pageOf { q := some "why cricket ?" } = JsNumber.finite 1 ∧
    limitOf { q := some "why cricket ?" } = JsNumber.finite 10 ∧
    searchVideos eng { q := some "why cricket ?" } store
      = { response := internalError, reads := [] } := by
  have ht : searchTerms "why cricket ?" = ["why", "cricket", "?"] := by decide
  have h1 : newRegExp eng "?" = none := by
    have hs : ("?".toList.all fun c => !isSyntaxCharacter c) = false := by decide
    have hq : startsWithQuantifier "?" = true := by decide
    simp only [newRegExp, hs, hq, Bool.false_eq_true, if_false, if_true]
  have hc : compileTerms eng (searchTerms "why cricket ?") = none := by
    rw [ht]
    have hw : ("why".toList.all fun c => !isSyntaxCharacter c) = true := by decide
    have hk : ("cricket".toList.all fun c => !isSyntaxCharacter c) = true := by decide
    simp only [compileTerms, newRegExp, hw, hk, if_true]
    have h1' := h1
    simp only [newRegExp] at h1'
    simp only [h1']
  refine ⟨by decide, by decide, by decide, ?_⟩
  exact searchVideos_throws eng _ store (by decide) (by decide) hc

theorem matchesHere_iff (fold : Char → Char) (pattern subject : List Char) :
    matchesHere fold pattern subject = true ↔
      ∃ mid after, subject = mid ++ after ∧ mid.map fold = pattern.map fold := by
  induction pattern generalizing subject with
  | nil =>
    simp only [matchesHere, List.map_nil, List.map_eq_nil_iff, true_iff]
    exact ⟨[], subject, by simp, rfl⟩
  | cons p ps ih =>
    cases subject with
    | nil =>
      simp only [matchesHere, Bool.false_eq_true, false_iff]
      rintro ⟨mid, after, h, hm⟩
      have hnil : mid = [] := by
        cases mid with
        | nil => rfl
        | cons _ _ => simp at h
      subst hnil
      simp at hm
    | cons c cs =>
      simp only [matchesHere, Bool.and_eq_true, beq_iff_eq, ih]
      constructor
      · rintro ⟨hpc, mid, after, hs, hm⟩
        exact ⟨c :: mid, after, by simp [hs], by simp [hm, hpc]⟩
      · rintro ⟨mid, after, hs, hm⟩
        cases mid with
        | nil => simp at hm
        | cons m ms =>
          simp only [List.cons_append, List.cons.injEq] at hs
          simp only [List.map_cons, List.cons.injEq] at hm
          obtain ⟨rfl, rfl⟩ := hs
          exact ⟨hm.1.symm, ms, after, rfl, hm.2⟩

theorem matchesSomewhere_iff (fold : Char → Char) (pattern subject : List Char) :
    matchesSomewhere fold pattern subject = true ↔ occursIn fold pattern subject := by
  induction subject with
  | nil =>
    simp only [matchesSomewhere, matchesHere_iff, occursIn]
    constructor
    · rintro ⟨mid, after, h, hm⟩
      exact ⟨[], mid, after, by simpa using h, hm⟩
    · rintro ⟨before, mid, after, h, hm⟩
      have hb : before = [] := by
        cases before with
        | nil => rfl
        | cons _ _ => simp at h
      subst hb
      exact ⟨mid, after, by simpa using h, hm⟩
  | cons c cs ih =>
    simp only [matchesSomewhere, Bool.or_eq_true, matchesHere_iff, ih, occursIn]
    constructor
    · rintro (⟨mid, after, h, hm⟩ | ⟨before, mid, after, h, hm⟩)
      · exact ⟨[], mid, after, by simpa using h, hm⟩
      · exact ⟨c :: before, mid, after, by simp [h], hm⟩
    · rintro ⟨before, mid, after, h, hm⟩
      cases before with
      | nil => exact Or.inl ⟨mid, after, by simpa using h, hm⟩
      | cons b bs =>
        simp only [List.cons_append, List.cons.injEq] at h
        exact Or.inr ⟨bs, mid, after, h.2, hm⟩

theorem compileTerms_literal (eng : RegExpEngine) (terms : List String)
    (h : ∀ t ∈ terms, (t.toList.all fun c => !isSyntaxCharacter c) = true) :
    compileTerms eng terms =
      some (terms.map fun t => fun subject =>
        matchesSomewhere eng.fold t.toList subject.toList) := by
  induction terms with
  | nil => rfl
  | cons t ts ih =>
    have ht := h t (List.mem_cons_self _ _)
    have hts := ih (fun u hu => h u (List.mem_cons_of_mem _ hu))
    simp only [compileTerms, newRegExp, ht, if_true, hts, List.map_cons]

/-- On queries whose terms hold no regular-expression syntax character the filter
of `searchVideos` is the literal match rule. -/
theorem searchCondition_literal (eng : RegExpEngine) (query : String) (d : VideoDoc)
    (h : ∀ t ∈ searchTerms query, (t.toList.all fun c => !isSyntaxCharacter c) = true) :
    ∃ regexes, compileTerms eng (searchTerms query) = some regexes ∧
      (searchCondition regexes regexes d = true ↔ literalMatch eng.fold query d) := by
  refine ⟨_, compileTerms_literal eng _ h, ?_⟩
  simp only [searchCondition, Bool.or_eq_true, List.any_eq_true, List.mem_map,
    literalMatch]
  constructor
  · rintro (⟨r, ⟨t, ht, rfl⟩, hr⟩ | ⟨r, ⟨t, ht, rfl⟩, hr⟩)
    · exact ⟨t, ht, Or.inl ((matchesSomewhere_iff _ _ _).1 hr)⟩
    · exact ⟨t, ht, Or.inr ((matchesSomewhere_iff _ _ _).1 hr)⟩
  · rintro ⟨t, ht, (ho | ho)⟩
    · exact Or.inl ⟨_, ⟨t, ht, rfl⟩, (matchesSomewhere_iff _ _ _).2 ho⟩
    · exact Or.inr ⟨_, ⟨t, ht, rfl⟩, (matchesSomewhere_iff _ _ _).2 ho⟩

/-- C3: the stored record titled `India + Pakistan highlights` holds the terms
`India` and `+` of the query `India + Pakistan` as literal substrings, so the
claim puts it in the result set; `searchVideos` builds `new RegExp("+", "i")`,
which throws, and answers 500 without any result set. -/
theorem plus_term_query_returns_no_result (eng : RegExpEngine) :
    literalMatch eng.fold "India + Pakistan"
      (sampleDoc 1 "India + Pakistan highlights" "Full match" 100) ∧
    searchVideos eng { q := some "India + Pakistan" }
        (Store.up [sampleDoc 1 "India + Pakistan highlights" "Full match" 100])
      = { response := internalError, reads := [] } := by
  have ht : searchTerms "India + Pakistan" = ["India", "+", "Pakistan"] := by decide
  constructor
  · refine ⟨"India", by rw [ht]; simp, Or.inl ?_⟩
    exact ⟨[], "India".toList, " + Pakistan highlights".toList, by decide, rfl⟩
  · have hi : ("India".toList.all fun c => !isSyntaxCharacter c) = true := by decide
    have hs : ("+".toList.all fun c => !isSyntaxCharacter c) = false := by decide
    have hq : startsWithQuantifier "+" = true := by decide
    have hc : compileTerms eng (searchTerms "India + Pakistan") = none := by
      rw [ht]
      simp only [compileTerms, newRegExp, hi, hs, hq, Bool.false_eq_true, if_false, if_true]
    exact searchVideos_throws eng { q := some "India + Pakistan" } _
      (by decide) (by decide) hc

theorem head_insertionSort_mem {α : Type} (r : α → α → Prop) [DecidableRel r]
    (l : List α) (a : α) (h : (l.insertionSort r).head? = some a) : a ∈ l := by
  have hm : a ∈ l.insertionSort r := List.mem_of_mem_head? h
  exact (List.perm_insertionSort r l).mem_iff.1 hm

theorem head_insertionSort_extreme {α : Type} (r : α → α → Prop) [DecidableRel r]
    [IsTotal α r] [IsTrans α r]
    (l : List α) (a : α) (h : (l.insertionSort r).head? = some a) :
    ∀ b ∈ l, r a b := by
  intro b hb
  have hs : (l.insertionSort r).Sorted r := List.sorted_insertionSort r l
  have hb' : b ∈ l.insertionSort r := (List.perm_insertionSort r l).mem_iff.2 hb
  cases hl : l.insertionSort r with
  | nil => rw [hl] at hb'; simp at hb'
  | cons x xs =>
    rw [hl] at h hs hb'
    simp only [List.head?_cons, Option.some.injEq] at h
    subst h
    rcases List.mem_cons.1 hb' with rfl | hmem
    · exact (IsTotal.total b b).elim id id
    · exact List.rel_of_sorted_cons hs b hmem

theorem head_insertionSort_none {α : Type} (r : α → α → Prop) [DecidableRel r]
    (l : List α) : (l.insertionSort r).head? = none ↔ l = [] := by
  rw [List.head?_eq_none_iff]
  constructor
  · intro h
    have := List.length_insertionSort r l
    rw [h] at this
    exact List.length_eq_zero.1 this.symm
  · rintro rfl
    rfl

/-- C7: `getVideoStats` answers with `totalVideos` equal to the number of stored
records; `latestVideo` and `oldestVideo` are null exactly when the store is empty;
otherwise they are `{title, publishedAt}` of a stored record whose `publishedAt`
is maximal, respectively minimal. -/
theorem stats_contract (docs : List VideoDoc) :
    ∃ latest oldest,
      getVideoStats (Store.up docs) =
        { response := { status := 200, success := true,
                        payload := Payload.stats docs.length latest oldest },
          reads := [StoreOp.countDocuments, StoreOp.findOne, StoreOp.findOne] } ∧
      (latest = none ↔ docs = []) ∧ (oldest = none ↔ docs = []) ∧
      (docs = [] → docs.length = 0) ∧
      (∀ l, latest = some l → ∃ d ∈ docs,
        l = { title := d.title, publishedAt := d.publishedAt } ∧
        ∀ e ∈ docs, e.publishedAt ≤ d.publishedAt) ∧
      (∀ o, oldest = some o → ∃ d ∈ docs,
        o = { title := d.title, publishedAt := d.publishedAt } ∧
        ∀ e ∈ docs, d.publishedAt ≤ e.publishedAt) := by
  refine ⟨briefOf (findLatest docs), briefOf (findOldest docs), rfl, ?_, ?_, ?_, ?_, ?_⟩
  · unfold findLatest
    rw [← head_insertionSort_none (fun a b : VideoDoc => b.publishedAt ≤ a.publishedAt) docs]
    cases (docs.insertionSort fun a b => b.publishedAt ≤ a.publishedAt).head? <;>
      simp [briefOf]
  · unfold findOldest
    rw [← head_insertionSort_none (fun a b : VideoDoc => a.publishedAt ≤ b.publishedAt) docs]
    cases (docs.insertionSort fun a b => a.publishedAt ≤ b.publishedAt).head? <;>
      simp [briefOf]
  · rintro rfl
    rfl
  · intro l hl
    unfold findLatest at hl
    cases hh : (docs.insertionSort fun a b => b.publishedAt ≤ a.publishedAt).head? with
    | none => rw [hh] at hl; simp [briefOf] at hl
    | some d =>
      rw [hh] at hl
      simp only [briefOf, Option.some.injEq] at hl
      exact ⟨d, head_insertionSort_mem _ _ _ hh, hl.symm,
        fun e he => head_insertionSort_extreme _ _ _ hh e he⟩
  · intro o ho
    unfold findOldest at ho
    cases hh : (docs.insertionSort fun a b => a.publishedAt ≤ b.publishedAt).head? with
    | none => rw [hh] at ho; simp [briefOf] at ho
    | some d =>
      rw [hh] at ho
      simp only [briefOf, Option.some.injEq] at ho
      exact ⟨d, head_insertionSort_mem _ _ _ hh, ho.symm,
        fun e he => head_insertionSort_extreme _ _ _ hh e he⟩

/-- The statistics of the two-document sample collection. -/
theorem stats_contract_witness :
    ∃ latest oldest,
      getVideoStats (Store.up sampleStore) =
        { response := { status := 200, success := true,
                        payload := Payload.stats sampleStore.length latest oldest },
          reads := [StoreOp.countDocuments, StoreOp.findOne, StoreOp.findOne] } ∧
      latest = some { title := "Tennis", publishedAt := 200 } ∧
      oldest = some { title := "Cricket Highlights", publishedAt := 100 } := by
  obtain ⟨latest, oldest, h, -⟩ := stats_contract sampleStore
  refine ⟨latest, oldest, h, ?_, ?_⟩
  · have h2 : getVideoStats (Store.up sampleStore) =
        { response := { status := 200, success := true,
                        payload := Payload.stats 2 (some { title := "Tennis", publishedAt := 200 })
                          (some { title := "Cricket Highlights", publishedAt := 100 }) },
          reads := [StoreOp.countDocuments, StoreOp.findOne, StoreOp.findOne] } := by decide
    rw [h2] at h
    injection h with h3 _
    injection h3 with _ _ h4
    injection h4 with _ h5 _
    exact h5.symm
  · have h2 : getVideoStats (Store.up sampleStore) =
        { response := { status := 200, success := true,
                        payload := Payload.stats 2 (some { title := "Tennis", publishedAt := 200 })
                          (some { title := "Cricket Highlights", publishedAt := 100 }) },
          reads := [StoreOp.countDocuments, StoreOp.findOne, StoreOp.findOne] } := by decide
    rw [h2] at h
    injection h with h3 _
    injection h3 with _ _ h4
    injection h4 with _ _ h5
    exact h5.symm

theorem updateFirst_split (video : VideoFields) (now : Int) (docs : List VideoDoc)
    (h : ∃ d ∈ docs, d.videoId = video.videoId) :
    ∃ l1 d l2, docs = l1 ++ d :: l2 ∧ d.videoId = video.videoId ∧
      updateFirst video now docs = l1 ++ applyUpdate d video now :: l2 := by
  induction docs with
  | nil => obtain ⟨d, hd, _⟩ := h; simp at hd
  | cons x xs ih =>
    by_cases hx : x.videoId = video.videoId
    · exact ⟨[], x, xs, rfl, hx, by simp [updateFirst, hx]⟩
    · obtain ⟨d, hd, hv⟩ := h
      have hd' : d ∈ xs := by
        rcases List.mem_cons.1 hd with rfl | hm
        · exact absurd hv hx
        · exact hm
      obtain ⟨l1, e, l2, hs, he, hu⟩ := ih ⟨d, hd', hv⟩
      exact ⟨x :: l1, e, l2, by simp [hs], he, by simp [updateFirst, hx, hu]⟩

theorem findOneAndUpdate_present (video : VideoFields) (now : Int) (docs : List VideoDoc)
    (h : ∃ d ∈ docs, d.videoId = video.videoId) :
    ∃ l1 d l2, docs = l1 ++ d :: l2 ∧ d.videoId = video.videoId ∧
      findOneAndUpdate docs video now = l1 ++ applyUpdate d video now :: l2 := by
  have hany : docs.any (fun d => decide (d.videoId = video.videoId)) = true := by
    simpa [List.any_eq_true] using h
  obtain ⟨l1, d, l2, hs, hd, hu⟩ := updateFirst_split video now docs h
  refine ⟨l1, d, l2, hs, hd, ?_⟩
  unfold findOneAndUpdate
  rw [if_pos hany, hu]

theorem findOneAndUpdate_absent (video : VideoFields) (now : Int) (docs : List VideoDoc)
    (h : ∀ d ∈ docs, d.videoId ≠ video.videoId) :
    findOneAndUpdate docs video now = docs ++ [newDocument (freshId docs) video now] := by
  have hany : ¬ docs.any (fun d => decide (d.videoId = video.videoId)) = true := by
    simp only [List.any_eq_true, decide_eq_true_eq, not_exists, not_and]
    exact h
  unfold findOneAndUpdate
  rw [if_neg hany]

/-- After a successful upsert the collection holds a document with the fields of
`video`, it has grown by at most one document, and a collection whose `videoId`s
were distinct keeps them distinct. -/
theorem findOneAndUpdate_spec (video : VideoFields) (now : Int) (docs : List VideoDoc) :
    (∃ d ∈ findOneAndUpdate docs video now, fieldsOf d = video) ∧
    (findOneAndUpdate docs video now).length ≤ docs.length + 1 ∧
    ((docs.map fun d => d.videoId).Nodup →
      ((findOneAndUpdate docs video now).map fun d => d.videoId).Nodup) := by
  by_cases h : ∃ d ∈ docs, d.videoId = video.videoId
  · obtain ⟨l1, d, l2, hs, hd, hu⟩ := findOneAndUpdate_present video now docs h
    rw [hu]
    refine ⟨⟨applyUpdate d video now, by simp, rfl⟩, by simp [hs], ?_⟩
    intro hn
    have : ((l1 ++ applyUpdate d video now :: l2).map fun d => d.videoId)
        = docs.map fun d => d.videoId := by
      simp [hs, applyUpdate, hd]
    rw [this]
    exact hn
  · have h' : ∀ d ∈ docs, d.videoId ≠ video.videoId := fun d hd hv => h ⟨d, hd, hv⟩
    rw [findOneAndUpdate_absent video now docs h']
    refine ⟨⟨newDocument (freshId docs) video now, by simp, rfl⟩, by simp, ?_⟩
    intro hn
    rw [List.map_append, List.nodup_append]
    refine ⟨hn, by simp, ?_⟩
    intro a ha hb
    simp only [List.map_cons, List.map_nil, List.mem_singleton] at hb
    obtain ⟨d, hd, rfl⟩ := List.mem_map.1 ha
    exact h' d hd (by simpa [newDocument] using hb)

theorem eq_of_videoId_eq (docs : List VideoDoc)
    (hn : (docs.map fun d => d.videoId).Nodup) (a b : VideoDoc)
    (ha : a ∈ docs) (hb : b ∈ docs) (h : a.videoId = b.videoId) : a = b :=
  List.inj_on_of_nodup_map hn ha hb h

/-- C4: on a collection whose `videoId`s are distinct (the unique index), running
the upsert of two items with the same `videoId` one after the other leaves exactly
one document with that `videoId` and at most one document more than before; the
second run sets `title`, `description`, `publishedAt`, `thumbnail`, `channelId`
and `channelTitle` to the values of the second item and keeps `videoId`,
`createdAt` and `_id` of the document the first run left. -/
theorem upsert_twice_keeps_one_record (docs : List VideoDoc) (first second : RawItem)
    (t1 t2 : Int) (hsame : first.id.videoId = second.id.videoId)
    (hunique : (docs.map fun d => d.videoId).Nodup) :
    ∃ d1 d2,
      d1 ∈ findOneAndUpdate docs (normalize first) t1 ∧
      d1.videoId = first.id.videoId ∧
      d2 ∈ findOneAndUpdate (findOneAndUpdate docs (normalize first) t1) (normalize second) t2 ∧
      (∀ d ∈ findOneAndUpdate (findOneAndUpdate docs (normalize first) t1)
          (normalize second) t2, d.videoId = first.id.videoId → d = d2) ∧
      ((findOneAndUpdate (findOneAndUpdate docs (normalize first) t1)
          (normalize second) t2).map fun d => d.videoId).count first.id.videoId = 1 ∧
      (findOneAndUpdate (findOneAndUpdate docs (normalize first) t1)
          (normalize second) t2).length ≤ docs.length + 1 ∧
      d2.title = second.snippet.title ∧ d2.description = second.snippet.description ∧
      d2.publishedAt = second.snippet.publishedAt ∧
      d2.thumbnail = thumbnailOf second.snippet ∧
      d2.channelId = second.snippet.channelId ∧
      d2.channelTitle = second.snippet.channelTitle ∧
      d2.videoId = d1.videoId ∧ d2.createdAt = d1.createdAt ∧ d2._id = d1._id := by
  obtain ⟨⟨d1, hd1, hf1⟩, hlen1, hn1⟩ := findOneAndUpdate_spec (normalize first) t1 docs
  have hn1 := hn1 hunique
  have hv1 : d1.videoId = first.id.videoId := by
    have := congrArg VideoFields.videoId hf1
    simpa [fieldsOf, normalize] using this
  have hpresent : ∃ d ∈ findOneAndUpdate docs (normalize first) t1,
      d.videoId = (normalize second).videoId :=
    ⟨d1, hd1, by rw [hv1, hsame]; rfl⟩
  obtain ⟨l1, e, l2, hs, he, hu⟩ :=
    findOneAndUpdate_present (normalize second) t2 _ hpresent
  have hee : e = d1 := by
    apply eq_of_videoId_eq _ hn1 e d1 (by rw [hs]; simp) hd1
    rw [he, hv1, hsame]; rfl
  subst hee
  have hn2 : ((findOneAndUpdate (findOneAndUpdate docs (normalize first) t1)
      (normalize second) t2).map fun d => d.videoId).Nodup :=
    (findOneAndUpdate_spec (normalize second) t2 _).2.2 hn1
  have hmem2 : applyUpdate e (normalize second) t2 ∈
      findOneAndUpdate (findOneAndUpdate docs (normalize first) t1) (normalize second) t2 := by
    rw [hu]; simp
  have hv2 : (applyUpdate e (normalize second) t2).videoId = first.id.videoId := by
    simp [applyUpdate, normalize, hsame]
  refine ⟨e, applyUpdate e (normalize second) t2, hd1, hv1, hmem2, ?_, ?_, ?_,
    rfl, rfl, rfl, rfl, rfl, rfl, ?_, rfl, rfl⟩
  · intro d hd hv
    exact eq_of_videoId_eq _ hn2 d _ hd hmem2 (by rw [hv, hv2])
  · apply List.count_eq_one_of_mem hn2
    exact List.mem_map.2 ⟨_, hmem2, hv2⟩
  · rw [hu]
    have : (l1 ++ applyUpdate e (normalize second) t2 :: l2).length
        = (findOneAndUpdate docs (normalize first) t1).length := by
      rw [hs]; simp
    rw [this]
    exact hlen1
  · rw [hv2, hv1]

/-- Two provider items for the same video met in two fetch cycles. -/
theorem upsert_twice_keeps_one_record_witness :
    (sampleItem "v9" "Old title").id.videoId = (sampleItem "v9" "New title").id.videoId ∧
    (sampleStore.map fun d => d.videoId).Nodup ∧
    ((findOneAndUpdate (findOneAndUpdate sampleStore (normalize (sampleItem "v9" "Old title")) 10)
        (normalize (sampleItem "v9" "New title")) 20).map fun d => d.videoId).count "v9" = 1 ∧
    (findOneAndUpdate (findOneAndUpdate sampleStore (normalize (sampleItem "v9" "Old title")) 10)
        (normalize (sampleItem "v9" "New title")) 20).length ≤ sampleStore.length + 1 := by
  obtain ⟨d1, d2, -, -, -, -, hcount, hlen, -⟩ :=
    upsert_twice_keeps_one_record sampleStore (sampleItem "v9" "Old title")
      (sampleItem "v9" "New title") 10 20 rfl (by decide)
  exact ⟨rfl, by decide, hcount, hlen⟩

theorem findOneAndUpdate_keeps_other (video : VideoFields) (now : Int)
    (docs : List VideoDoc) (d : VideoDoc) (hd : d ∈ docs)
    (hne : d.videoId ≠ video.videoId) : d ∈ findOneAndUpdate docs video now := by
  by_cases h : ∃ e ∈ docs, e.videoId = video.videoId
  · obtain ⟨l1, e, l2, hs, he, hu⟩ := findOneAndUpdate_present video now docs h
    rw [hu]
    rw [hs] at hd
    simp only [List.mem_append, List.mem_cons] at hd ⊢
    rcases hd with h1 | rfl | h2
    · exact Or.inl h1
    · exact absurd he hne
    · exact Or.inr (Or.inr h2)
  · rw [findOneAndUpdate_absent video now docs (fun e he hv => h ⟨e, he, hv⟩)]
    exact List.mem_append_left _ hd

theorem findOneAndUpdate_keeps_videoId (video : VideoFields) (now : Int)
    (docs : List VideoDoc) (d : VideoDoc) (hd : d ∈ docs) :
    ∃ e ∈ findOneAndUpdate docs video now, e.videoId = d.videoId := by
  by_cases hne : d.videoId = video.videoId
  · obtain ⟨e, he, hf⟩ := (findOneAndUpdate_spec video now docs).1
    refine ⟨e, he, ?_⟩
    rw [hne, ← hf]
    rfl
  · exact ⟨d, findOneAndUpdate_keeps_other video now docs d hd hne, rfl⟩

/-- C9 (counterexample): for the provider item whose `thumbnails.default` is the
object `{url: "u"}`, the record built by the normalisation has that object as its
thumbnail: `width` and `height` are absent, not zero. -/
theorem incomplete_thumbnail_is_kept :
    (normalize (itemWithThumbnails
        (some { default := some { url := some "u", width := none, height := none } }))).thumbnail
      = { url := some "u", width := none, height := none } ∧
    ¬ thumbnailComplete (normalize (itemWithThumbnails
        (some { default := some { url := some "u", width := none, height := none } }))).thumbnail := by
  constructor
  · rfl
  · decide

/-- C9 (amended): the record built by the normalisation always has a thumbnail
object; it is exactly `{url: "", width: 0, height: 0}` when the item has no
`thumbnails` or no `thumbnails.default`, and the provider's `thumbnails.default`
object as sent otherwise, so that `url`, `width` and `height` are all present
exactly when the default was substituted or the provider sent all three. -/
theorem normalize_thumbnail_default_or_provider (item : RawItem) :
    ((item.snippet.thumbnails = none ∨
        ∃ t, item.snippet.thumbnails = some t ∧ t.default = none) →
      (normalize item).thumbnail = { url := some "", width := some 0, height := some 0 }) ∧
    (∀ t d, item.snippet.thumbnails = some t → t.default = some d →
      (normalize item).thumbnail = d) ∧
    (thumbnailComplete (normalize item).thumbnail ↔
      (item.snippet.thumbnails = none ∨
        ∃ t, item.snippet.thumbnails = some t ∧
          (t.default = none ∨ ∃ d, t.default = some d ∧ thumbnailComplete d))) := by
  have hzero : thumbnailComplete emptyThumbnail := by decide
  refine ⟨?_, ?_, ?_⟩
  · rintro (h | ⟨t, h, hd⟩)
    · simp [normalize, thumbnailOf, h, emptyThumbnail]
    · simp [normalize, thumbnailOf, h, hd, emptyThumbnail]
  · intro t d h hd
    simp [normalize, thumbnailOf, h, hd]
  · cases h : item.snippet.thumbnails with
    | none =>
      have : (normalize item).thumbnail = emptyThumbnail := by
        simp [normalize, thumbnailOf, h]
      rw [this]
      exact ⟨fun _ => Or.inl rfl, fun _ => hzero⟩
    | some t =>
      cases hd : t.default with
      | none =>
        have : (normalize item).thumbnail = emptyThumbnail := by
          simp [normalize, thumbnailOf, h, hd]
        rw [this]
        exact ⟨fun _ => Or.inr ⟨t, rfl, Or.inl hd⟩, fun _ => hzero⟩
      | some d =>
        have : (normalize item).thumbnail = d := by
          simp [normalize, thumbnailOf, h, hd]
        rw [this]
        constructor
        · intro hc
          exact Or.inr ⟨t, rfl, Or.inr ⟨d, hd, hc⟩⟩
        · rintro (h0 | ⟨t', ht', (hn | ⟨d', hd', hc⟩)⟩)
          · simp at h0
          · simp only [Option.some.injEq] at ht'
            subst ht'
            rw [hd] at hn
            simp at hn
          · simp only [Option.some.injEq] at ht'
            subst ht'
            rw [hd] at hd'
            simp only [Option.some.injEq] at hd'
            subst hd'
            exact hc

/-- An item without `thumbnails` gets the zero thumbnail, an item with a full
default thumbnail keeps it. -/
theorem normalize_thumbnail_default_or_provider_witness :
    (normalize (itemWithThumbnails none)).thumbnail
      = { url := some "", width := some 0, height := some 0 } ∧
    (normalize (itemWithThumbnails
        (some { default := some { url := some "u", width := some 120, height := some 90 } }))).thumbnail
      = { url := some "u", width := some 120, height := some 90 } :=
  ⟨(normalize_thumbnail_default_or_provider _).1 (Or.inl rfl),
   (normalize_thumbnail_default_or_provider _).2.1 _ _ rfl rfl⟩

theorem storeLoop_cons_item (fault : Nat → Option UpsertError) (clock : Nat → Int)
    (i : Nat) (x : RawItem) (rest : List ItemJson) (st : FetchState) :
    storeLoop fault clock i (itemJson x :: rest) st =
      match fault i with
      | none =>
        storeLoop fault clock (i + 1) rest
          { docs := findOneAndUpdate st.docs (normalize x) (clock i),
            savedCount := st.savedCount + 1,
            attempts := st.attempts ++ [normalize x],
            log := st.log,
            thrown := st.thrown }
      | some error =>
        storeLoop fault clock (i + 1) rest
          { docs := st.docs,
            savedCount := st.savedCount,
            attempts := st.attempts ++ [normalize x],
            log := if error.code ≠ some 11000 then
                st.log ++ [LogLine.saveError (normalize x).videoId error.message]
              else st.log,
            thrown := st.thrown } := by
  rfl

theorem storeLoop_cons_throw (fault : Nat → Option UpsertError) (clock : Nat → Int)
    (i : Nat) (bad : ItemJson) (rest : List ItemJson) (st : FetchState) (message : String)
    (h : readItem bad = Except.error message) :
    storeLoop fault clock i (bad :: rest) st = { st with thrown := some message } := by
  simp only [storeLoop, h]

theorem storeLoop_thrown (fault : Nat → Option UpsertError) (clock : Nat → Int)
    (items : List RawItem) (i : Nat) (st : FetchState) :
    (storeLoop fault clock i (items.map itemJson) st).thrown = st.thrown := by
  induction items generalizing i st with
  | nil => simp [storeLoop]
  | cons x xs ih =>
    rw [List.map_cons, storeLoop_cons_item]
    cases fault i <;> simp [ih]

theorem storeLoop_append (fault : Nat → Option UpsertError) (clock : Nat → Int)
    (items : List RawItem) (rest : List ItemJson) (i : Nat) (st : FetchState) :
    storeLoop fault clock i (items.map itemJson ++ rest) st =
      storeLoop fault clock (i + items.length) rest
        (storeLoop fault clock i (items.map itemJson) st) := by
  induction items generalizing i st with
  | nil => simp [storeLoop]
  | cons x xs ih =>
    have hi : i + (x :: xs).length = i + 1 + xs.length := by simp; omega
    rw [List.map_cons, List.cons_append, storeLoop_cons_item, storeLoop_cons_item, hi]
    cases fault i <;> simp [ih]

theorem storeLoop_attempts (fault : Nat → Option UpsertError) (clock : Nat → Int)
    (items : List RawItem) (i : Nat) (st : FetchState) :
    (storeLoop fault clock i (items.map itemJson) st).attempts = st.attempts ++ items.map normalize := by
  induction items generalizing i st with
  | nil => simp [storeLoop]
  | cons x xs ih =>
    rw [List.map_cons, storeLoop_cons_item]
    cases fault i <;> simp [ih]

theorem storeLoop_savedCount (fault : Nat → Option UpsertError) (clock : Nat → Int)
    (items : List RawItem) (i : Nat) (st : FetchState) :
    (storeLoop fault clock i (items.map itemJson) st).savedCount =
      st.savedCount +
        ((List.range items.length).filter fun j => (fault (i + j)).isNone).length := by
  induction items generalizing i st with
  | nil => simp [storeLoop]
  | cons x xs ih =>
    have hshift : ∀ j, fault (i + 1 + j) = fault (i + (j + 1)) := fun j => by
      congr 1; omega
    rw [List.map_cons, storeLoop_cons_item]
    cases hf : fault i with
    | none =>
      simp only [ih, List.length_cons, List.range_succ_eq_map, List.filter_cons,
        Nat.add_zero, hf, Option.isNone_none, if_true, List.length_cons, List.filter_map,
        List.length_map, Function.comp_def, hshift]
      simp only [Nat.succ_eq_add_one]
      omega
    | some e =>
      simp only [ih, List.length_cons, List.range_succ_eq_map, List.filter_cons,
        Nat.add_zero, hf, Option.isNone_some, Bool.false_eq_true, if_false,
        List.filter_map, List.length_map, Function.comp_def, hshift]

theorem storeLoop_keeps_videoId (fault : Nat → Option UpsertError) (clock : Nat → Int)
    (items : List RawItem) (i : Nat) (st : FetchState) (vid : String)
    (h : ∃ d ∈ st.docs, d.videoId = vid) :
    ∃ d ∈ (storeLoop fault clock i (items.map itemJson) st).docs, d.videoId = vid := by
  induction items generalizing i st with
  | nil => simpa [storeLoop] using h
  | cons x xs ih =>
    rw [List.map_cons, storeLoop_cons_item]
    cases hf : fault i with
    | none =>
      apply ih
      obtain ⟨d, hd, hv⟩ := h
      obtain ⟨e, he, hev⟩ := findOneAndUpdate_keeps_videoId (normalize x) (clock i) st.docs d hd
      exact ⟨e, he, hev.trans hv⟩
    | some e => exact ih _ _ h

theorem storeLoop_stores_success (fault : Nat → Option UpsertError) (clock : Nat → Int)
    (items : List RawItem) (i : Nat) (st : FetchState) (j : Nat) (item : RawItem)
    (hj : items[j]? = some item) (hok : fault (i + j) = none) :
    ∃ d ∈ (storeLoop fault clock i (items.map itemJson) st).docs, d.videoId = item.id.videoId := by
  induction items generalizing i st j with
  | nil => simp at hj
  | cons x xs ih =>
    cases j with
    | zero =>
      simp only [List.getElem?_cons_zero, Option.some.injEq] at hj
      subst hj
      simp only [Nat.add_zero] at hok
      rw [List.map_cons, storeLoop_cons_item]
      simp only [hok]
      apply storeLoop_keeps_videoId
      obtain ⟨d, hd, hfd⟩ := (findOneAndUpdate_spec (normalize x) (clock i) st.docs).1
      refine ⟨d, hd, ?_⟩
      have := congrArg VideoFields.videoId hfd
      simpa [fieldsOf, normalize] using this
    | succ j =>
      simp only [List.getElem?_cons_succ] at hj
      have hok' : fault (i + 1 + j) = none := by
        rw [← hok]; congr 1; omega
      rw [List.map_cons, storeLoop_cons_item]
      cases fault i with
      | none => exact ih _ _ _ hj hok'
      | some e => exact ih _ _ _ hj hok'

theorem storeLoop_keeps_fields (fault : Nat → Option UpsertError) (clock : Nat → Int)
    (items : List RawItem) (i : Nat) (st : FetchState) (video : VideoFields)
    (h : ∃ d ∈ st.docs, fieldsOf d = video)
    (hlater : ∀ j other, items[j]? = some other → fault (i + j) = none →
      other.id.videoId ≠ video.videoId) :
    ∃ d ∈ (storeLoop fault clock i (items.map itemJson) st).docs, fieldsOf d = video := by
  induction items generalizing i st with
  | nil => simpa [storeLoop] using h
  | cons x xs ih =>
    have hrest : ∀ j other, xs[j]? = some other → fault (i + 1 + j) = none →
        other.id.videoId ≠ video.videoId := by
      intro j other hj hf
      apply hlater (j + 1) other (by simpa using hj)
      rw [← hf]; congr 1; omega
    rw [List.map_cons, storeLoop_cons_item]
    cases hf : fault i with
    | none =>
      apply ih _ _ _ hrest
      obtain ⟨d, hd, hv⟩ := h
      have hx : x.id.videoId ≠ video.videoId := hlater 0 x (by simp) (by simpa using hf)
      refine ⟨d, findOneAndUpdate_keeps_other _ _ _ d hd ?_, hv⟩
      intro hc
      apply hx
      have := congrArg VideoFields.videoId hv
      simp only [fieldsOf] at this
      rw [← this, hc]
      rfl
    | some e => exact ih _ _ h hrest

theorem storeLoop_stores_last_write (fault : Nat → Option UpsertError) (clock : Nat → Int)
    (items : List RawItem) (i : Nat) (st : FetchState) (j : Nat) (item : RawItem)
    (hj : items[j]? = some item) (hok : fault (i + j) = none)
    (hlater : ∀ k other, j < k → items[k]? = some other → fault (i + k) = none →
      other.id.videoId ≠ item.id.videoId) :
    ∃ d ∈ (storeLoop fault clock i (items.map itemJson) st).docs, fieldsOf d = normalize item := by
  induction items generalizing i st j with
  | nil => simp at hj
  | cons x xs ih =>
    cases j with
    | zero =>
      simp only [List.getElem?_cons_zero, Option.some.injEq] at hj
      subst hj
      simp only [Nat.add_zero] at hok
      rw [List.map_cons, storeLoop_cons_item]
      simp only [hok]
      apply storeLoop_keeps_fields
      · exact (findOneAndUpdate_spec (normalize x) (clock i) st.docs).1
      · intro k other hk hf
        apply hlater (k + 1) other (by omega) (by simpa using hk)
        rw [← hf]; congr 1; omega
    | succ j =>
      simp only [List.getElem?_cons_succ] at hj
      have hok' : fault (i + 1 + j) = none := by
        rw [← hok]; congr 1; omega
      have hlater' : ∀ k other, j < k → xs[k]? = some other → fault (i + 1 + k) = none →
          other.id.videoId ≠ item.id.videoId := by
        intro k other hjk hk hf
        apply hlater (k + 1) other (by omega) (by simpa using hk)
        rw [← hf]; congr 1; omega
      rw [List.map_cons, storeLoop_cons_item]
      cases fault i with
      | none => exact ih _ _ _ hj hok' hlater'
      | some e => exact ih _ _ _ hj hok' hlater'

/-- C10 (counterexample): in the batch whose first element has no `snippet` and
whose second element is a complete item, no write is rejected, yet the build of
`video` for the first element throws before the inner `try`: the second item is
never passed to the upsert, nothing is saved, and the outer `catch` logs the
error in place of the summary. -/
theorem malformed_item_aborts_batch :
    fetchAndStoreVideos (some "key")
        (Except.ok [{ id := some { videoId := "a" }, snippet := none },
                    itemJson (sampleItem "b" "B")])
        (fun _ => none) (fun _ => 7) []
      = { docs := [], savedCount := 0, attempts := [],
          log := [LogLine.fetchError "Cannot read properties of undefined (reading title)"],
          thrown := some "Cannot read properties of undefined (reading title)" } := by
  decide

/-- C10 (amended): once the key is configured and the provider has answered with
a batch whose elements all carry `id` and `snippet`, every item of the batch is
passed to the upsert, in the provider's order, whatever subset of the writes is
rejected and whatever the error codes are; `savedCount` is the number of writes
that succeeded, hence at most the number fetched; the collection ends with a
document for the `videoId` of every item whose write succeeded, carrying the
fields of that item when no later successful write of the batch has the same
`videoId`; the summary line reports both counts. An element without `id` or
`snippet` ends the cycle where it stands: the items before it have been
attempted, the later ones are not, and the error is logged in place of the
summary. -/
theorem batch_is_best_effort (apiKey : String) (items : List RawItem)
    (fault : Nat → Option UpsertError) (clock : Nat → Int) (docs : List VideoDoc)
    (hkey : apiKey ≠ "" ∧ apiKey ≠ "YOUR_YOUTUBE_API_KEY") :
    (fetchAndStoreVideos (some apiKey) (Except.ok (items.map itemJson)) fault clock docs).attempts
      = items.map normalize ∧
    (fetchAndStoreVideos (some apiKey) (Except.ok (items.map itemJson)) fault clock docs).savedCount
      = ((List.range items.length).filter fun i => (fault i).isNone).length ∧
    (fetchAndStoreVideos (some apiKey) (Except.ok (items.map itemJson)) fault clock docs).savedCount
      ≤ items.length ∧
    (∀ i item, items[i]? = some item → fault i = none →
      ∃ d ∈ (fetchAndStoreVideos (some apiKey) (Except.ok (items.map itemJson))
          fault clock docs).docs,
        d.videoId = item.id.videoId) ∧
    (∀ i item, items[i]? = some item → fault i = none →
      (∀ k other, i < k → items[k]? = some other → fault k = none →
        other.id.videoId ≠ item.id.videoId) →
      ∃ d ∈ (fetchAndStoreVideos (some apiKey) (Except.ok (items.map itemJson))
          fault clock docs).docs,
        fieldsOf d = normalize item) ∧
    (fetchAndStoreVideos (some apiKey) (Except.ok (items.map itemJson)) fault clock docs).log.getLast?
      = some (LogLine.summary items.length
          ((List.range items.length).filter fun i => (fault i).isNone).length) ∧
    (∀ bad rest message, readItem bad = Except.error message →
      (fetchAndStoreVideos (some apiKey) (Except.ok (items.map itemJson ++ bad :: rest))
          fault clock docs).attempts = items.map normalize ∧
      (fetchAndStoreVideos (some apiKey) (Except.ok (items.map itemJson ++ bad :: rest))
          fault clock docs).docs
        = (fetchAndStoreVideos (some apiKey) (Except.ok (items.map itemJson))
            fault clock docs).docs ∧
      (fetchAndStoreVideos (some apiKey) (Except.ok (items.map itemJson ++ bad :: rest))
          fault clock docs).log.getLast? = some (LogLine.fetchError message)) := by
  have hcfg : ¬ (some apiKey = none ∨ some apiKey = some "" ∨
      some apiKey = some "YOUR_YOUTUBE_API_KEY") := by
    simp only [Option.some.injEq, false_or, not_or, reduceCtorEq, not_false_eq_true]
    exact ⟨hkey.1, hkey.2⟩
  have hthrown := storeLoop_thrown fault clock items 0
    { docs := docs, savedCount := 0, attempts := [], log := [], thrown := none }
  have hrun : fetchAndStoreVideos (some apiKey) (Except.ok (items.map itemJson)) fault clock docs
      = { storeLoop fault clock 0 (items.map itemJson)
            { docs := docs, savedCount := 0, attempts := [], log := [], thrown := none } with
          log := (storeLoop fault clock 0 (items.map itemJson)
              { docs := docs, savedCount := 0, attempts := [], log := [], thrown := none }).log ++
            [LogLine.summary (items.map itemJson).length
              (storeLoop fault clock 0 (items.map itemJson)
                { docs := docs, savedCount := 0, attempts := [], log := [],
                  thrown := none }).savedCount] } := by
    unfold fetchAndStoreVideos
    rw [if_neg hcfg]
    simp only [hthrown]
  have hcount := storeLoop_savedCount fault clock items 0
    { docs := docs, savedCount := 0, attempts := [], log := [], thrown := none }
  simp only [Nat.zero_add] at hcount
  have habort : ∀ (bad : ItemJson) (rest : List ItemJson) (message : String),
      readItem bad = Except.error message →
      fetchAndStoreVideos (some apiKey) (Except.ok (items.map itemJson ++ bad :: rest))
          fault clock docs
        = { storeLoop fault clock 0 (items.map itemJson)
              { docs := docs, savedCount := 0, attempts := [], log := [], thrown := none } with
            thrown := some message
            log := (storeLoop fault clock 0 (items.map itemJson)
                { docs := docs, savedCount := 0, attempts := [], log := [],
                  thrown := none }).log ++ [LogLine.fetchError message] } := by
    intro bad rest message hbad
    unfold fetchAndStoreVideos
    rw [if_neg hcfg]
    simp only [storeLoop_append, storeLoop_cons_throw _ _ _ _ _ _ _ hbad]
  refine ⟨?_, ?_, ?_, ?_, ?_, ?_, ?_⟩
  · rw [hrun]; simp [storeLoop_attempts]
  · rw [hrun]; exact hcount
  · rw [hrun]
    show (storeLoop fault clock 0 _ _).savedCount ≤ items.length
    rw [hcount]
    calc ((List.range items.length).filter fun i => (fault i).isNone).length
        ≤ (List.range items.length).length := List.length_filter_le _ _
      _ = items.length := List.length_range _
  · intro i item hi hok
    rw [hrun]
    exact storeLoop_stores_success fault clock items 0 _ i item hi (by simpa using hok)
  · intro i item hi hok hlater
    rw [hrun]
    exact storeLoop_stores_last_write fault clock items 0 _ i item hi (by simpa using hok)
      (fun k other hk ho hf => hlater k other hk ho (by simpa using hf))
  · rw [hrun]; simp [hcount]
  · intro bad rest message hbad
    rw [habort bad rest message hbad, hrun]
    refine ⟨?_, rfl, ?_⟩
    · simp [storeLoop_attempts]
    · simp

/-- A batch of three items whose second write is rejected: three attempts, two
saved, and the first item is stored with its fields. -/
theorem batch_is_best_effort_witness :
    ("key" ≠ "" ∧ "key" ≠ "YOUR_YOUTUBE_API_KEY") ∧
    (fetchAndStoreVideos (some "key")
        (Except.ok ([sampleItem "a" "A", sampleItem "b" "B", sampleItem "c" "C"].map itemJson))
        secondWriteFails (fun _ => 7) []).attempts
      = [sampleItem "a" "A", sampleItem "b" "B", sampleItem "c" "C"].map normalize ∧
    (fetchAndStoreVideos (some "key")
        (Except.ok ([sampleItem "a" "A", sampleItem "b" "B", sampleItem "c" "C"].map itemJson))
        secondWriteFails (fun _ => 7) []).savedCount = 2 ∧
    ∃ d ∈ (fetchAndStoreVideos (some "key")
        (Except.ok ([sampleItem "a" "A", sampleItem "b" "B", sampleItem "c" "C"].map itemJson))
        secondWriteFails (fun _ => 7) []).docs, fieldsOf d = normalize (sampleItem "a" "A") := by
  have h := batch_is_best_effort "key"
    [sampleItem "a" "A", sampleItem "b" "B", sampleItem "c" "C"]
    secondWriteFails (fun _ => 7) [] ⟨by decide, by decide⟩
  refine ⟨⟨by decide, by decide⟩, h.1, ?_, ?_⟩
  · rw [h.2.1]; decide
  · refine h.2.2.2.2.1 0 (sampleItem "a" "A") rfl (by decide) ?_
    intro k other hk ho _
    match k, hk, ho with
    | 1, _, ho =>
      simp only [List.getElem?_cons_succ, List.getElem?_cons_zero, Option.some.injEq] at ho
      subst ho; decide
    | 2, _, ho =>
      simp only [List.getElem?_cons_succ, List.getElem?_cons_zero, Option.some.injEq] at ho
      subst ho; decide
    | k + 3, _, ho => simp at ho

theorem sortForPaging_sorted (docs : List VideoDoc) :
    (sortForPaging docs).Sorted pageOrder :=
  List.sorted_insertionSort pageOrder docs

theorem sortForPaging_perm (docs : List VideoDoc) : (sortForPaging docs).Perm docs :=
  List.perm_insertionSort pageOrder docs

theorem sortForPaging_length (docs : List VideoDoc) :
    (sortForPaging docs).length = docs.length :=
  List.length_insertionSort pageOrder docs

theorem flatten_pages {α : Type} (L : List α) (l n : Nat) :
    ((List.range n).map fun k => (L.drop (k * l)).take l).flatten = L.take (n * l) := by
  induction n with
  | zero => simp
  | succ n ih =>
    rw [List.range_succ, List.map_append, List.flatten_append, ih, Nat.succ_mul,
      List.take_add]
    simp

theorem ceilDiv_bounds (n : Nat) (limit : Int) (hl : 1 ≤ limit) :
    0 ≤ ceilDiv n limit ∧ limit * (ceilDiv n limit - 1) < n ∧
      (n : Int) ≤ limit * ceilDiv n limit := by
  unfold ceilDiv
  have hpos : 0 < limit := by omega
  have h1 := Int.ediv_add_emod ((n : Int) + limit - 1) limit
  have h2 := Int.emod_nonneg ((n : Int) + limit - 1) (ne_of_gt hpos)
  have h3 := Int.emod_lt_of_pos ((n : Int) + limit - 1) hpos
  have h4 : 0 ≤ ((n : Int) + limit - 1) / limit := Int.ediv_nonneg (by omega) (by omega)
  refine ⟨h4, ?_, ?_⟩
  · rw [mul_sub, mul_one]; omega
  · omega

theorem viewOrder_selectNoV (a b : VideoDoc) :
    viewOrder (selectNoV a) (selectNoV b) ↔ pageOrder a b := Iff.rfl

theorem guard_ok (p l : Int) (h1 : 1 ≤ p) (h2 : 1 ≤ l) (h3 : l ≤ 100) :
    pagingRejected (JsNumber.finite p) (JsNumber.finite l) = false := by
  simp only [pagingRejected, jsLt, Bool.or_eq_false_iff, decide_eq_false_iff_not, not_lt]
  exact ⟨⟨h1, h2⟩, h3⟩

theorem page_slice (k l : Nat) (S : List VideoDoc) :
    (S.drop ((((k : Int) + 1 - 1) * (l : Int)).toNat)).take (l : Int).toNat
      = (S.drop (k * l)).take l := by
  have : (((k : Int) + 1 - 1) * (l : Int)) = ((k * l : Nat) : Int) := by push_cast; ring
  rw [this, Int.toNat_ofNat, Int.toNat_ofNat]

theorem mkPagination_finite (p l : Int) (n : Nat) (hl : 1 ≤ l) :
    mkPagination (JsNumber.finite p) (JsNumber.finite l) n =
      { currentPage := JsNumber.finite p, totalPages := JsNumber.finite (ceilDiv n l),
        totalVideos := n, hasNextPage := decide (p < ceilDiv n l),
        hasPreviousPage := decide (1 < p), limit := JsNumber.finite l } := by
  have h0 : 0 < l := by omega
  simp only [mkPagination, jsCeilDiv, h0, if_true, jsLt]

/-- C2: for a store of `N` records and a limit between 1 and 100, the `videos`
lists that `getVideos` returns for the pages 1, ..., `totalPages` (each page
reporting `totalPages = ceil(N / limit)`), put end to end, are the stored records,
each once, ordered by `publishedAt` descending and `_id` ascending. -/
theorem pages_cover_store (docs : List VideoDoc) (limit : Int) (reqs : Nat → Request)
    (hl : 1 ≤ limit) (hu : limit ≤ 100)
    (hreq : ∀ p : Nat, 1 ≤ p → (p : Int) ≤ ceilDiv docs.length limit →
      pageOf (reqs p) = JsNumber.finite p ∧ limitOf (reqs p) = JsNumber.finite limit) :
    concatPages reqs docs (ceilDiv docs.length limit).toNat
      = (sortForPaging docs).map selectNoV ∧
    (concatPages reqs docs (ceilDiv docs.length limit).toNat).Perm (docs.map selectNoV) ∧
    (concatPages reqs docs (ceilDiv docs.length limit).toNat).Sorted viewOrder ∧
    (concatPages reqs docs (ceilDiv docs.length limit).toNat).length = docs.length ∧
    (∀ p : Nat, 1 ≤ p → (p : Int) ≤ ceilDiv docs.length limit →
      ∃ pg, paginationOf (getVideos (reqs p) (Store.up docs)) = some pg ∧
        pg.totalPages = JsNumber.finite (ceilDiv docs.length limit) ∧
        pg.currentPage = JsNumber.finite p ∧
        pg.totalVideos = docs.length) := by
  obtain ⟨hc0, -, hc2⟩ := ceilDiv_bounds docs.length limit hl
  obtain ⟨l, rfl⟩ : ∃ l : Nat, limit = (l : Int) := ⟨limit.toNat, by omega⟩
  obtain ⟨n, hn⟩ : ∃ n : Nat, ceilDiv docs.length (l : Int) = (n : Int) :=
    ⟨(ceilDiv docs.length (l : Int)).toNat, by omega⟩
  rw [hn] at hc2 hreq ⊢
  rw [Int.toNat_ofNat]
  have hsafe : n ≤ 9007199254740992 := by
    by_contra hbig
    have := (hreq 9007199254740993 (by omega) (by push_cast; omega)).1
    exact pageOf_ne_odd _ (by rw [this]; rfl)
  have hcover : docs.length ≤ n * l := by
    have : ((docs.length : Nat) : Int) ≤ ((l * n : Nat) : Int) := by push_cast; exact hc2
    have := Int.ofNat_le.1 this
    rw [Nat.mul_comm] at this
    exact this
  have hpage : ∀ p : Nat, 1 ≤ p → p ≤ n →
      getVideos (reqs p) (Store.up docs) =
        { response :=
            { status := 200, success := true,
              payload := Payload.listing
                ((((sortForPaging docs).drop (((p : Int) - 1) * (l : Int)).toNat).take
                  (l : Int).toNat).map selectNoV) none
                (mkPagination (JsNumber.finite p) (JsNumber.finite l) docs.length) },
          reads := [StoreOp.find, StoreOp.countDocuments] } := by
    intro p hp1 hpn
    obtain ⟨hp, hlim⟩ := hreq p hp1 (by exact_mod_cast hpn)
    exact getVideos_on (reqs p) docs p l _ hp hlim
      (offsetOf_safe p l (by exact_mod_cast hp1) (by omega) hl hu)
      (guard_ok p l (by exact_mod_cast hp1) hl hu)
  have hpages : concatPages reqs docs n = (sortForPaging docs).map selectNoV := by
    unfold concatPages
    have hmap : ((List.range n).map fun k =>
          videosOf (getVideos (reqs (k + 1)) (Store.up docs)))
        = (List.range n).map fun k =>
          (((sortForPaging docs).drop (k * l)).take l).map selectNoV := by
      apply List.map_congr_left
      intro k hk
      have hk' : k < n := List.mem_range.1 hk
      rw [hpage (k + 1) (by omega) (by omega)]
      show (((sortForPaging docs).drop _).take _).map selectNoV = _
      have := page_slice k l (sortForPaging docs)
      push_cast at this ⊢
      rw [this]
    rw [hmap]
    have hmm : ((List.range n).map fun k =>
          (((sortForPaging docs).drop (k * l)).take l).map selectNoV)
        = ((List.range n).map fun k => ((sortForPaging docs).drop (k * l)).take l).map
            (List.map selectNoV) := by
      rw [List.map_map]; rfl
    rw [hmm, ← List.map_flatten, flatten_pages]
    rw [List.take_of_length_le (by rw [sortForPaging_length]; exact hcover)]
  rw [hpages]
  refine ⟨rfl, (sortForPaging_perm docs).map _, ?_, ?_, ?_⟩
  · unfold List.Sorted
    rw [List.pairwise_map]
    exact sortForPaging_sorted docs
  · rw [List.length_map, sortForPaging_length]
  · intro p hp1 hpn
    have hpn' : p ≤ n := by exact_mod_cast hpn
    rw [hpage p hp1 hpn', mkPagination_finite _ _ _ hl]
    exact ⟨_, rfl, by simp only [hn], rfl, rfl⟩

/-- Both pages of the two-document sample collection, one record a page. -/
theorem pages_cover_store_witness :
    (1 : Int) ≤ 1 ∧ (1 : Int) ≤ 100 ∧
    concatPages onePerPage sampleStore (ceilDiv sampleStore.length 1).toNat
      = (sortForPaging sampleStore).map selectNoV ∧
    (concatPages onePerPage sampleStore (ceilDiv sampleStore.length 1).toNat).Perm
      (sampleStore.map selectNoV) := by
  have h := pages_cover_store sampleStore 1 onePerPage (by decide) (by decide) (by
    intro p h1 h2
    have hc : ceilDiv sampleStore.length 1 = 2 := by decide
    rw [hc] at h2
    have hp : p = 1 ∨ p = 2 := by omega
    rcases hp with rfl | rfl
    · exact ⟨by decide, by decide⟩
    · exact ⟨by decide, by decide⟩)
  exact ⟨by decide, by decide, h.1, h.2.1⟩

theorem sortForPaging_beforeOrSame (docs : List VideoDoc)
    (hids : (docs.map fun d => d._id).Nodup) :
    (sortForPaging docs).Sorted beforeOrSame := by
  have hs : (sortForPaging docs).Pairwise pageOrder := sortForPaging_sorted docs
  have hn : ((sortForPaging docs).map fun d => d._id).Nodup :=
    ((sortForPaging_perm docs).map _).nodup_iff.2 hids
  have hn' : (sortForPaging docs).Pairwise fun a b => a._id ≠ b._id := by
    unfold List.Nodup at hn
    rwa [List.pairwise_map] at hn
  refine (hs.and hn').imp ?_
  rintro a b ⟨hab, hne⟩
  left
  unfold pageOrder at hab
  unfold sortsBefore
  omega

theorem sortForPaging_congr (l1 l2 : List VideoDoc) (h : l1.Perm l2)
    (hids : (l1.map fun d => d._id).Nodup) : sortForPaging l1 = sortForPaging l2 := by
  have hids2 : (l2.map fun d => d._id).Nodup := (h.map _).nodup_iff.1 hids
  apply List.eq_of_perm_of_sorted (r := beforeOrSame)
  · exact (sortForPaging_perm l1).trans (h.trans (sortForPaging_perm l2).symm)
  · exact sortForPaging_beforeOrSame l1 hids
  · exact sortForPaging_beforeOrSame l2 hids2

theorem take_orderedInsert (r : VideoDoc) (S : List VideoDoc) (k : Nat)
    (hk : k ≤ S.length) (h : ∀ x ∈ S.take k, sortsBefore x r) :
    (S.orderedInsert pageOrder r).take k = S.take k := by
  induction S generalizing k with
  | nil =>
    have : k = 0 := by simpa using hk
    subst this
    simp
  | cons b l ih =>
    cases k with
    | zero => simp
    | succ k =>
      have hb : sortsBefore b r := h b (by simp)
      have hnot : ¬ pageOrder r b := by
        unfold sortsBefore at hb; unfold pageOrder; omega
      rw [List.orderedInsert, if_neg hnot, List.take_succ_cons, List.take_succ_cons,
        ih k (by simpa using hk) (fun x hx => h x (by simp [hx]))]

theorem before_of_sorted_take (S : List VideoDoc) (hS : S.Sorted pageOrder) (k : Nat)
    (last r : VideoDoc) (hlast : (S.take k).getLast? = some last)
    (hr : sortsBefore last r) : ∀ x ∈ S.take k, sortsBefore x r := by
  obtain ⟨ys, hys⟩ := List.getLast?_eq_some_iff.1 hlast
  have hsorted : (S.take k).Pairwise pageOrder :=
    List.Pairwise.sublist (List.take_sublist k S) hS
  rw [hys] at hsorted ⊢
  intro x hx
  rcases List.mem_append.1 hx with hx | hx
  · have hxl : pageOrder x last :=
      (List.pairwise_append.1 hsorted).2.2 x hx last (by simp)
    unfold pageOrder at hxl; unfold sortsBefore at *; omega
  · simp only [List.mem_singleton] at hx
    subst hx
    exact hr

theorem videosOf_refused (req : Request) (docs : List VideoDoc)
    (h : pagingRejected (pageOf req) (limitOf req) = false)
    (hc : cursorPage (sortForPaging docs) (offsetOf (pageOf req) (limitOf req)) (limitOf req)
      = none) :
    videosOf (getVideos req (Store.up docs)) = [] := by
  rw [getVideos_refused req docs h hc]
  rfl

/-- C8: when the page that `getVideos` returns for a valid page and limit is full
and a new record (with a fresh `_id`) sorts after its last item in the order
`publishedAt` descending, `_id` ascending, the same request on the store with the
record inserted returns the same `videos` list. -/
theorem page_stable_after_later_insert (req : Request) (docs inserted : List VideoDoc)
    (r : VideoDoc)
    (hvalid : pagingRejected (pageOf req) (limitOf req) = false)
    (hins : inserted.Perm (r :: docs))
    (hids : (inserted.map fun d => d._id).Nodup)
    (hfull : JsNumber.finite ((videosOf (getVideos req (Store.up docs))).length : Int)
      = limitOf req)
    (hafter : ∀ last, (videosOf (getVideos req (Store.up docs))).getLast? = some last →
      viewBefore last (selectNoV r)) :
    videosOf (getVideos req (Store.up inserted)) = videosOf (getVideos req (Store.up docs)) := by
  obtain ⟨⟨l, hlim, hl1, hl100⟩, hpage⟩ :=
    guard_passes _ _ (pageOf_ne_nan req) (limitOf_ne_nan req) hvalid
  have hrefused : (∀ sorted, cursorPage sorted (offsetOf (pageOf req) (limitOf req))
      (limitOf req) = none) →
      videosOf (getVideos req (Store.up inserted))
        = videosOf (getVideos req (Store.up docs)) := by
    intro hnone
    rw [videosOf_refused req inserted hvalid (hnone _),
      videosOf_refused req docs hvalid (hnone _)]
  rcases hpage with hinf | ⟨p, hp, hp1⟩
  · apply hrefused
    intro sorted
    rw [hinf, hlim]
    exact offsetOf_infinite_page l hl1 sorted
  · rcases offsetOf_cases p l with ho | hnone
    · have hdocs := getVideos_on req docs p l _ hp hlim ho (guard_ok p l hp1 hl1 hl100)
      have hinserted :=
        getVideos_on req inserted p l _ hp hlim ho (guard_ok p l hp1 hl1 hl100)
      rw [hdocs] at hfull hafter ⊢
      rw [hinserted]
      simp only [videosOf] at hfull hafter ⊢
      generalize ((p - 1) * l).toNat = s at hfull hafter ⊢
      obtain ⟨k, rfl⟩ : ∃ k : Nat, l = (k : Int) := ⟨l.toNat, by omega⟩
      rw [Int.toNat_ofNat] at hfull hafter ⊢
      rw [hlim] at hfull
      simp only [JsNumber.finite.injEq] at hfull
      have hk1 : 1 ≤ k := by omega
      rw [List.length_map, List.length_take, List.length_drop] at hfull
      have hk : s + k ≤ (sortForPaging docs).length := by
        have : min k ((sortForPaging docs).length - s) = k := by exact_mod_cast hfull
        omega
      have hsort : sortForPaging inserted
          = (sortForPaging docs).orderedInsert pageOrder r := by
        rw [sortForPaging_congr inserted (r :: docs) hins hids]
        rfl
      rw [hsort, List.take_drop, List.take_drop]
      congr 2
      apply take_orderedInsert r _ _ hk
      have hne : (sortForPaging docs).take (s + k) ≠ [] := by
        intro h
        have := congrArg List.length h
        rw [List.length_take, Nat.min_eq_left hk] at this
        simp at this
        omega
      obtain ⟨last, hlast⟩ :
          ∃ last, ((sortForPaging docs).take (s + k)).getLast? = some last :=
        ⟨_, List.getLast?_eq_getLast _ hne⟩
      apply before_of_sorted_take _ (sortForPaging_sorted docs) _ last r hlast
      have hpg : ((((sortForPaging docs).drop s).take k).map selectNoV).getLast?
          = some (selectNoV last) := by
        rw [List.take_drop, List.getLast?_map, List.getLast?_drop, if_neg, hlast]
        · rfl
        · rw [List.length_take, Nat.min_eq_left hk]
          omega
      exact hafter _ hpg
    · apply hrefused
      intro sorted
      rw [hp, hlim]
      exact hnone sorted

/-- A record older than both documents of the sample collection is inserted;
page 1 with two records a page is full and does not change. -/
theorem page_stable_after_later_insert_witness :
    pagingRejected (pageOf { page := some "1", limit := some "2" })
      (limitOf { page := some "1", limit := some "2" }) = false ∧
    (sampleStore ++ [sampleDoc 3 "Older" "Video" 50]).Perm
      (sampleDoc 3 "Older" "Video" 50 :: sampleStore) ∧
    ((sampleStore ++ [sampleDoc 3 "Older" "Video" 50]).map fun d => d._id).Nodup ∧
    JsNumber.finite ((videosOf (getVideos { page := some "1", limit := some "2" }
      (Store.up sampleStore))).length : Int) = limitOf { page := some "1", limit := some "2" } ∧
    videosOf (getVideos { page := some "1", limit := some "2" }
        (Store.up (sampleStore ++ [sampleDoc 3 "Older" "Video" 50])))
      = videosOf (getVideos { page := some "1", limit := some "2" } (Store.up sampleStore)) := by
  have hlast : (videosOf (getVideos { page := some "1", limit := some "2" }
      (Store.up sampleStore))).getLast?
      = some (selectNoV (sampleDoc 1 "Cricket Highlights" "Football recap" 100)) := by
    decide
  refine ⟨by decide, List.perm_append_singleton _ _, by decide, by decide, ?_⟩
  apply page_stable_after_later_insert { page := some "1", limit := some "2" } sampleStore
    (sampleStore ++ [sampleDoc 3 "Older" "Video" 50]) (sampleDoc 3 "Older" "Video" 50)
    (by decide) (List.perm_append_singleton _ _) (by decide) (by decide)
  intro last hl
  rw [hlast] at hl
  injection hl with hl
  subst hl
  decide

theorem pagination_facts (page limit : Int) (records : List VideoDoc)
    (hp : 1 ≤ page) (hl : 1 ≤ limit) :
    PaginationContract page limit (sortForPaging records)
      ((((sortForPaging records).drop ((page - 1) * limit).toNat).take
        limit.toNat).map selectNoV)
      (mkPagination (JsNumber.finite page) (JsNumber.finite limit) records.length) := by
  obtain ⟨-, hc1, hc2⟩ := ceilDiv_bounds records.length limit hl
  rw [mkPagination_finite _ _ _ hl]
  refine ⟨rfl, rfl, (sortForPaging_length records).symm, ?_, rfl, ?_, rfl⟩
  · rw [sortForPaging_length]
    exact ⟨_, rfl, hc1, hc2, rfl⟩
  · obtain ⟨l, rfl⟩ : ∃ l : Nat, limit = (l : Int) := ⟨limit.toNat, by omega⟩
    obtain ⟨a, ha⟩ : ∃ a : Nat, page = (a : Int) + 1 := ⟨(page - 1).toNat, by omega⟩
    subst ha
    rw [page_slice, List.length_map, List.length_take, List.length_drop,
      sortForPaging_length]
    have hm : ((a : Int) + 1 - 1) * (l : Int) = ((a * l : Nat) : Int) := by push_cast; ring
    rw [hm]
    generalize a * l = m
    omega

set_option maxRecDepth 100000 in
/-- C5 (counterexample): the guard accepts `page=9007199254740993` and a page of
310 digits as pages of at least 1. For the first the handler answers with
`currentPage = 9007199254740992`, the double that `parseInt` returns, not the page
that was asked for; for the second `page` and `skip` are `Infinity`, the find is
rejected and the answer is 500 without a pagination object. -/
theorem huge_page_breaks_pagination :
    pagingRejected (pageOf { page := some "9007199254740993" })
      (limitOf { page := some "9007199254740993" }) = false ∧
    paginationOf (getVideos { page := some "9007199254740993" } (Store.up sampleStore))
      = some { currentPage := JsNumber.finite 9007199254740992,
               totalPages := JsNumber.finite 1, totalVideos := 2, hasNextPage := false,
               hasPreviousPage := true, limit := JsNumber.finite 10 } ∧
    pageOf { page := some "1000000000000000000000000000000000000000000000000000000000000000000000000000000000000000000000000000000000000000000000000000000000000000000000000000000000000000000000000000000000000000000000000000000000000000000000000000000000000000000000000000000000000000000000000000000000000000000000000000000000000000000000" } = JsNumber.infinity false ∧
    pagingRejected (pageOf { page := some "1000000000000000000000000000000000000000000000000000000000000000000000000000000000000000000000000000000000000000000000000000000000000000000000000000000000000000000000000000000000000000000000000000000000000000000000000000000000000000000000000000000000000000000000000000000000000000000000000000000000000000000000" })
      (limitOf { page := some "1000000000000000000000000000000000000000000000000000000000000000000000000000000000000000000000000000000000000000000000000000000000000000000000000000000000000000000000000000000000000000000000000000000000000000000000000000000000000000000000000000000000000000000000000000000000000000000000000000000000000000000000" }) = false ∧
    getVideos { page := some "1000000000000000000000000000000000000000000000000000000000000000000000000000000000000000000000000000000000000000000000000000000000000000000000000000000000000000000000000000000000000000000000000000000000000000000000000000000000000000000000000000000000000000000000000000000000000000000000000000000000000000000000" } (Store.up sampleStore)
      = { response := internalError, reads := [StoreOp.find] } := by
  refine ⟨by decide, by decide, by decide, by decide, by decide⟩

theorem contract_fifteen (p : Int) (sorted : List VideoDoc) (videos : List VideoView)
    (pg : Pagination) (h : PaginationContract p 10 sorted videos pg)
    (hN : sorted.length = 15) :
    pg.totalPages = JsNumber.finite 2 ∧
    (p = 1 → videos = (sorted.take 10).map selectNoV ∧ videos.length = 10 ∧
      pg.hasNextPage = true) ∧
    (p = 2 → videos = (sorted.drop 10).map selectNoV ∧ videos.length = 5 ∧
      pg.hasNextPage = false) := by
  obtain ⟨-, -, -, ⟨c, hc, hlow, hhigh, hnext⟩, -, -, hvideos⟩ := h
  rw [hN] at hlow hhigh
  have hc2 : c = 2 := by push_cast at hlow hhigh; omega
  subst hc2
  refine ⟨hc, ?_, ?_⟩
  · intro hp
    subst hp
    have h0 : (((1 : Int) - 1) * 10).toNat = 0 := by decide
    rw [h0, show (10 : Int).toNat = 10 from rfl, List.drop_zero] at hvideos
    refine ⟨hvideos, ?_, ?_⟩
    · rw [hvideos, List.length_map, List.length_take, hN]
      decide
    · rw [hnext]; decide
  · intro hp
    subst hp
    have h10 : (((2 : Int) - 1) * 10).toNat = 10 := by decide
    have hlen : (sorted.drop 10).length ≤ 10 := by
      rw [List.length_drop, hN]
      decide
    rw [h10, show (10 : Int).toNat = 10 from rfl, List.take_of_length_le hlen] at hvideos
    refine ⟨hvideos, ?_, ?_⟩
    · rw [hvideos, List.length_map, List.length_drop, hN]
    · rw [hnext]; decide

/-- C5 (amended): for a request that passes the guard, with `page` the number the
handler holds (the double `parseInt` returns, or 1). When `page` is finite and
the offset `(page - 1) * limit` is below 2^63, `getVideos` over the `N` stored
records, and `searchVideos` over the `N` records matching a non-blank query whose
terms compile, answer 200 with `currentPage = page`, `totalVideos = N`,
`totalPages = ceil(N / limit)`, `hasNextPage = (page < totalPages)`,
`hasPreviousPage = (page > 1)` and `min(limit, max(0, N - (page - 1) * limit))`
videos, the records after the first `(page - 1) * limit` in cursor order; for
`N = 15` and `limit = 10`, page 1 holds the records 1 to 10 with `hasNextPage =
true`, page 2 holds the records 11 to 15 with `hasNextPage = false`, and
`totalPages = 2`. When the offset is not a finite number, the find is rejected
and both handlers answer 500. -/
theorem pagination_contract (eng : RegExpEngine) (req : Request) (docs : List VideoDoc)
    (hvalid : pagingRejected (pageOf req) (limitOf req) = false) :
    (∀ p l s, pageOf req = JsNumber.finite p → limitOf req = JsNumber.finite l →
      offsetOf (pageOf req) (limitOf req) = JsNumber.finite s →
      s < 9223372036854775808 →
      (1 ≤ p ∧ 1 ≤ l ∧ l ≤ 100 ∧ s = (p - 1) * l) ∧
      (∃ videos pg,
        (getVideos req (Store.up docs)).response =
          { status := 200, success := true, payload := Payload.listing videos none pg } ∧
        PaginationContract p l (sortForPaging docs) videos pg ∧
        (docs.length = 15 → l = 10 →
          pg.totalPages = JsNumber.finite 2 ∧
          (p = 1 → videos = ((sortForPaging docs).take 10).map selectNoV ∧
            videos.length = 10 ∧ pg.hasNextPage = true) ∧
          (p = 2 → videos = ((sortForPaging docs).drop 10).map selectNoV ∧
            videos.length = 5 ∧ pg.hasNextPage = false))) ∧
      (∀ regexes, isBlankQuery req.q = false →
        compileTerms eng (searchTerms (req.q.getD "")) = some regexes →
        ∃ videos pg,
          (searchVideos eng req (Store.up docs)).response =
            { status := 200, success := true, payload := Payload.listing videos req.q pg } ∧
          PaginationContract p l
            (sortForPaging (docs.filter (searchCondition regexes regexes))) videos pg ∧
          ((docs.filter (searchCondition regexes regexes)).length = 15 → l = 10 →
            pg.totalPages = JsNumber.finite 2 ∧
            (p = 1 → videos = ((sortForPaging (docs.filter
                (searchCondition regexes regexes))).take 10).map selectNoV ∧
              videos.length = 10 ∧ pg.hasNextPage = true) ∧
            (p = 2 → videos = ((sortForPaging (docs.filter
                (searchCondition regexes regexes))).drop 10).map selectNoV ∧
              videos.length = 5 ∧ pg.hasNextPage = false)))) ∧
    ((∀ s, offsetOf (pageOf req) (limitOf req) ≠ JsNumber.finite s) →
      getVideos req (Store.up docs) = { response := internalError, reads := [StoreOp.find] } ∧
      (∀ regexes, isBlankQuery req.q = false →
        compileTerms eng (searchTerms (req.q.getD "")) = some regexes →
        searchVideos eng req (Store.up docs)
          = { response := internalError, reads := [StoreOp.find] })) := by
  constructor
  · intro p l s hp hl ho _
    have hg : pagingRejected (JsNumber.finite p) (JsNumber.finite l) = false := by
      rw [← hp, ← hl]; exact hvalid
    have hbounds : 1 ≤ p ∧ 1 ≤ l ∧ l ≤ 100 := by
      simp only [pagingRejected, jsLt, Bool.or_eq_false_iff, decide_eq_false_iff_not,
        not_lt] at hg
      exact ⟨hg.1.1, hg.1.2, hg.2⟩
    obtain ⟨hp1, hl1, hlu⟩ := hbounds
    rw [hp, hl] at ho
    have hs := offsetOf_of_finite p l s ho
    subst hs
    refine ⟨⟨hp1, hl1, hlu, rfl⟩, ?_, ?_⟩
    · refine ⟨_, _, by rw [getVideos_on req docs p l _ hp hl ho hg],
        pagination_facts p l docs hp1 hl1, ?_⟩
      intro hN hlim
      subst hlim
      exact contract_fifteen p _ _ _ (pagination_facts p 10 docs hp1 hl1)
        (by rw [sortForPaging_length, hN])
    · intro regexes hq hc
      refine ⟨_, _, by rw [searchVideos_on eng req docs regexes p l _ hq hc hp hl ho hg],
        pagination_facts p l _ hp1 hl1, ?_⟩
      intro hN hlim
      subst hlim
      exact contract_fifteen p _ _ _ (pagination_facts p 10 _ hp1 hl1)
        (by rw [sortForPaging_length, hN])
  · intro hnot
    have hnone : ∀ sorted, cursorPage sorted (offsetOf (pageOf req) (limitOf req))
        (limitOf req) = none := by
      intro sorted
      cases ho : offsetOf (pageOf req) (limitOf req) with
      | nan => rfl
      | finite s => exact absurd ho (hnot s)
      | infinity b => rfl
    refine ⟨getVideos_refused req docs hvalid (hnone _), ?_⟩
    intro regexes hq hc
    unfold searchVideos
    simp only [hq, Bool.false_eq_true, if_false, hvalid, hc, hnone]

/-- Page 2 of fifteen documents, ten a page, for the listing and for the search
of `cricket`. -/
theorem pagination_contract_witness :
    pagingRejected (pageOf { q := some "cricket", page := some "2", limit := some "10" })
      (limitOf { q := some "cricket", page := some "2", limit := some "10" }) = false ∧
    (∃ videos pg,
      (getVideos { q := some "cricket", page := some "2", limit := some "10" }
        (Store.up fifteenDocs)).response =
        { status := 200, success := true, payload := Payload.listing videos none pg } ∧
      pg.totalPages = JsNumber.finite 2 ∧ videos.length = 5 ∧ pg.hasNextPage = false) ∧
    (∃ videos pg,
      (searchVideos asciiEngine { q := some "cricket", page := some "2", limit := some "10" }
        (Store.up fifteenDocs)).response =
        { status := 200, success := true,
          payload := Payload.listing videos (some "cricket") pg } ∧
      pg.currentPage = JsNumber.finite 2) := by
  obtain ⟨-, ⟨videos, pg, hresp, -, hex⟩, hsearch⟩ :=
    (pagination_contract asciiEngine { q := some "cricket", page := some "2", limit := some "10" }
      fifteenDocs (by decide)).1 2 10 10 (by decide) (by decide) (by decide) (by decide)
  have hex' := hex (by decide) rfl
  have hterms : searchTerms "cricket" = ["cricket"] := by decide
  have hc : compileTerms asciiEngine (searchTerms "cricket") =
      some ((searchTerms "cricket").map fun t => fun subject =>
        matchesSomewhere asciiEngine.fold t.toList subject.toList) :=
    compileTerms_literal asciiEngine _ (by
      rw [hterms]
      intro t ht
      simp only [List.mem_singleton] at ht
      subst ht
      decide)
  obtain ⟨videos2, pg2, hresp2, hcontract2, -⟩ := hsearch _ (by decide) hc
  exact ⟨by decide,
    ⟨videos, pg, hresp, hex'.1, (hex'.2.2 rfl).2.1, (hex'.2.2 rfl).2.2⟩,
    ⟨videos2, pg2, hresp2, hcontract2.1⟩⟩

end YoutubeVideosApi
